import Mathlib

/-!
Verification of the `chat_with_db` question-to-insight pipeline.

This file is a shallow embedding, in Lean 4, of the algorithmic core of the
repository:

* `app/db/security.py`   — `SQLSecurityValidator` (`validate`, `_is_select_only`,
  `_has_limit`, `sanitize`) together with the fragment of the third-party
  `sqlparse` library that `validate` depends on (token classification and
  parenthesis grouping; `statement.tokens` is the *top-level* token list of the
  parse tree, nested tokens sit inside group nodes whose `ttype` is `None`).
* `app/llm/chains.py`    — `SQLGenerationChain._validate_sql_completeness` and
  the success/failure plumbing of `generate`.
* `app/services/chat_service.py` — the step of `handle_question` that gates the
  executor (and hence the security validator, whose only call site for
  generated SQL is `SQLExecutor.execute`) on `sql_success`.
* `app/llm/query_intent.py` — `QueryIntentDetector` (pattern tables, intent
  type, entities, metrics, confidence).
* `app/services/statistical_analysis.py` — `StatisticalAnalysisService`
  (correlation / comparison / trend / aggregate analyses and the
  visualization suggestion).

Modelling conventions: Python strings are `String` / `List Char`;
`str.strip`, `str.rstrip`, `str.upper`, `str.lower`, `in` (substring),
`str.find` and `re.search` over the fixed patterns of the source are embedded
as executable functions below.  Python floats are embedded as exact numbers
(`ℚ` for data, `ℝ` where the code takes square roots); the NaN results that
the code checks for (`pd.isna`) are embedded as `Option`.  The
natural-language (Arabic) interpretation strings that the analysis service
formats are not modelled: no claim mentions them, and every other field of the
returned dictionaries is embedded.  Python's `lower`/`upper` are embedded
ASCII-only, which agrees with Python on every pattern constant of the source.
-/

namespace ChatWithDb

/-! ## Python string primitives -/

/-- Python `str.strip()` whitespace characters (the ASCII ones). -/
def pyIsSpace (c : Char) : Bool :=
  c == ' ' || c == '\t' || c == '\n' || c == '\r' || c == '\x0b' || c == '\x0c'

/-- ASCII uppercase of a character list (Python `str.upper()` on the
character sets appearing in this code base). -/
def upperL (l : List Char) : List Char := l.map Char.toUpper

/-- ASCII lowercase of a character list (Python `str.lower()`). -/
def lowerL (l : List Char) : List Char := l.map Char.toLower

/-- Drop the longest suffix whose characters satisfy `p`
(the core of Python `str.rstrip`). -/
def rdropWhileL (p : Char → Bool) (l : List Char) : List Char :=
  (l.reverse.dropWhile p).reverse

/-- Python `str.strip()`: drop leading and trailing whitespace. -/
def pyStripL (l : List Char) : List Char :=
  rdropWhileL pyIsSpace (l.dropWhile pyIsSpace)

/-- Python `str.rstrip(";")`: drop all trailing semicolons. -/
def rstripSemiL (l : List Char) : List Char :=
  rdropWhileL (· == ';') l

/-- Does the pattern `p` start at index `i` of `l`? -/
def subAt (p l : List Char) (i : Nat) : Bool := p.isPrefixOf (l.drop i)

/-- Python `p in l` for strings: `p` occurs as a contiguous substring of `l`. -/
def hasSub (p l : List Char) : Bool :=
  (List.range (l.length + 1)).any (subAt p l)

/-- Python `l.find(p)` (as an `Option` instead of `-1`): index of the first
occurrence of `p` in `l`. -/
def indexOfSub (p l : List Char) : Option Nat :=
  (List.range (l.length + 1)).find? (subAt p l)

/-- Python `str.upper()` on a `String`. -/
def upperS (s : String) : String := ⟨upperL s.toList⟩

/-- Python `str.lower()` on a `String`. -/
def lowerS (s : String) : String := ⟨lowerL s.toList⟩

/-- Python `str.strip()` on a `String`. -/
def pyStripS (s : String) : String := ⟨pyStripL s.toList⟩

/-! ## The sqlparse fragment used by `SQLSecurityValidator.validate`

`validate` iterates over `sqlparse.parse(sql.strip())[0].tokens`.  In
`sqlparse`, that is the list of *top-level* nodes of the statement's parse
tree: a lexer classifies each word with a token type (`DML` for
`SELECT/INSERT/DELETE/UPDATE/UPSERT/REPLACE/MERGE`, `DDL` for
`CREATE/ALTER/DROP`, `Keyword.CTE` for `WITH`, plain `Keyword` for the other
SQL keywords, `Name` otherwise), and a grouping pass folds every
parenthesised region into a single group node whose `ttype` is `None`.
The embedding below reproduces exactly that much: the token-type tables for
the words exercised here, and the two grouping passes that move tokens the
loop could otherwise reject — parentheses (`group_parenthesis`) and WHERE
clauses (`group_where`) — applied in sqlparse's order.  The remaining
passes (identifiers, comparisons, functions …) only wrap `Name`-class
tokens, which neither branch of the loop inspects, so they are not
modelled; grouping below the top level is likewise omitted, as the loop
never descends into a group. -/

/-- The sqlparse token types `validate` can observe on a top-level node. -/
inductive TType where
  | dml | ddl | cte | keyword | name | number | punct | wildcard | whitespace | other
deriving DecidableEq, Repr

instance : BEq TType := ⟨fun a b => decide (a = b)⟩

instance : LawfulBEq TType where
  eq_of_beq h := of_decide_eq_true h
  rfl := by simp [BEq.beq]

/-- Token-type table of the sqlparse lexer for the word `w` (given uppercased). -/
def wordTType (w : String) : TType :=
  if ["SELECT", "INSERT", "DELETE", "UPDATE", "UPSERT", "REPLACE", "MERGE"].contains w then .dml
  else if ["CREATE", "ALTER", "DROP"].contains w then .ddl
  else if w == "WITH" then .cte
  else if ["FROM", "WHERE", "LIMIT", "TABLE", "AS", "ON", "IN", "AND", "OR", "JOIN",
           "INNER", "LEFT", "RIGHT", "OUTER", "GROUP", "ORDER", "BY", "HAVING",
           "UNION", "ALL", "DISTINCT", "INTO", "VALUES", "SET", "RETURNING",
           "NOT", "NULL", "LIKE", "BETWEEN", "IS", "EXISTS", "ASC", "DESC",
           "EXCEPT", "TRUNCATE", "GRANT", "EXECUTE", "CALL", "COPY"].contains w then .keyword
  else if w.toList ≠ [] && w.toList.all Char.isDigit then .number
  else .name

/-- A node of the sqlparse parse tree as `validate` sees it: an atom carrying
a `ttype` and its text, or a group (whose `ttype` is `None` in Python). -/
inductive SToken where
  | atom (tt : TType) (v : String)
  | group (ts : List SToken)
deriving Repr

/-- Is `c` a word character of the lexer (identifier/keyword constituent)? -/
def isWordChar (c : Char) : Bool := c.isAlphanum || c == '_'

/-- The sqlparse lexer over the character classes appearing in this code
base: whitespace runs, words (classified by `wordTType`), `*`, punctuation,
single other characters.  Fuel-driven; the fuel `l.length` always suffices. -/
def lexGo : Nat → List Char → List SToken
  | 0, _ => []
  | _, [] => []
  | fuel + 1, c :: cs =>
    if pyIsSpace c then
      SToken.atom .whitespace ⟨c :: cs.takeWhile pyIsSpace⟩ ::
        lexGo fuel (cs.dropWhile pyIsSpace)
    else if isWordChar c then
      SToken.atom (wordTType ⟨upperL (c :: cs.takeWhile isWordChar)⟩)
          ⟨c :: cs.takeWhile isWordChar⟩ ::
        lexGo fuel (cs.dropWhile isWordChar)
    else if c == '*' then SToken.atom .wildcard "*" :: lexGo fuel cs
    else if c == '(' || c == ')' || c == ';' || c == ',' then
      SToken.atom .punct ⟨[c]⟩ :: lexGo fuel cs
    else SToken.atom .other ⟨[c]⟩ :: lexGo fuel cs

/-- Run the lexer. -/
def lex (l : List Char) : List SToken := lexGo l.length l

/-- Is this token an opening parenthesis atom? -/
def isOpenParen : SToken → Bool
  | .atom .punct v => v == "("
  | _ => false

/-- Is this token a closing parenthesis atom? -/
def isCloseParen : SToken → Bool
  | .atom .punct v => v == ")"
  | _ => false

/-- The sqlparse grouping pass restricted to parentheses: consume tokens
until an unmatched `)` (or the end), folding each balanced parenthesised
region into a `group` node; returns the grouped tokens and the rest.
Fuel-driven; `ts.length + 1` always suffices. -/
def parseGroupGo : Nat → List SToken → List SToken × List SToken
  | 0, ts => ([], ts)
  | _ + 1, [] => ([], [])
  | fuel + 1, t :: ts =>
    if isCloseParen t then ([], ts)
    else if isOpenParen t then
      let inner := parseGroupGo fuel ts
      let tail := parseGroupGo fuel inner.2
      (SToken.group inner.1 :: tail.1, tail.2)
    else
      let tail := parseGroupGo fuel ts
      (t :: tail.1, tail.2)

/-- Is `t` a keyword atom with the (uppercased) text `w`? -/
def isKw (w : String) : SToken → Bool
  | .atom .keyword v => upperS v == w
  | _ => false

/-- Is `t` a whitespace atom? -/
def isWs : SToken → Bool
  | .atom .whitespace _ => true
  | _ => false

/-- Does the token list begin with a keyword that closes a `Where` group
(`sqlparse.sql.Where.M_CLOSE`: `ORDER BY`, `GROUP BY`, `LIMIT`, `UNION`,
`UNION ALL`, `EXCEPT`, `HAVING`, `RETURNING`, `INTO`)?  The sqlparse lexer
emits the two-word forms as single keyword tokens (`ORDER\s+BY`,
`GROUP\s+BY`); the word-by-word lexer here emits two keyword tokens, so
`ORDER`/`GROUP` closes exactly when the next non-whitespace token is `BY`
— and `UNION` alone is already a close keyword, covering `UNION ALL`. -/
def whereCloses : List SToken → Bool
  | [] => false
  | t :: ts =>
    isKw "LIMIT" t || isKw "UNION" t || isKw "EXCEPT" t || isKw "HAVING" t ||
    isKw "RETURNING" t || isKw "INTO" t ||
    ((isKw "ORDER" t || isKw "GROUP" t) && (ts.dropWhile isWs).head?.any (isKw "BY"))

/-- The tokens belonging to a `WHERE` clause: everything up to (and
excluding) the first closing keyword, paired with the remaining tokens
(`group_where` groups from the `WHERE` token to the token preceding the
close match, or to the end of the list when none matches). -/
def whereTake : List SToken → List SToken × List SToken
  | [] => ([], [])
  | t :: ts =>
    if whereCloses (t :: ts) then ([], t :: ts)
    else
      let r := whereTake ts
      (t :: r.1, r.2)

/-- `sqlparse.engine.grouping.group_where` at one nesting level: each
`WHERE` keyword and the tokens following it up to the next close keyword
(or the end) fold into one group node, whose `ttype` is `None` like any
group's.  Fuel-driven; `ts.length` always suffices, as each step consumes
at least the head token. -/
def whereFoldGo : Nat → List SToken → List SToken
  | 0, ts => ts
  | _ + 1, [] => []
  | fuel + 1, t :: ts =>
    if isKw "WHERE" t then
      SToken.group (t :: (whereTake ts).1) :: whereFoldGo fuel (whereTake ts).2
    else t :: whereFoldGo fuel ts

/-- Run the `WHERE` grouping pass. -/
def whereFold (ts : List SToken) : List SToken := whereFoldGo ts.length ts

/-- `sqlparse.parse(sql.strip())[0].tokens`: the statement's top-level
token list — lexing, then parenthesis grouping, then `WHERE` grouping, in
the order of `sqlparse.engine.grouping.group`. -/
def parseStatement (sql : String) : List SToken :=
  whereFold (parseGroupGo (lex (pyStripL sql.toList)).length (lex (pyStripL sql.toList))).1

/-- `settings.SQL_ALLOWED_OPERATIONS` (app/config.py line 69). -/
def SQL_ALLOWED_OPERATIONS : List String := ["SELECT"]

/-- `settings.SQL_MAX_ROWS` (app/config.py line 68). -/
def SQL_MAX_ROWS : Nat := 1000

/-- `SQLSecurityValidator.blocked_keywords` (security.py lines 21-25). -/
def blockedKeywords : List String :=
  ["DELETE", "DROP", "TRUNCATE", "ALTER", "CREATE",
   "INSERT", "UPDATE", "GRANT", "REVOKE", "EXEC",
   "EXECUTE", "CALL", "MERGE", "COPY"]

/-- Result of `validate`, with the side effect of line 63 made visible:
`warnedMissingLimit` is true exactly when the `logger.warning` for a missing
LIMIT clause executes. -/
structure ValidationResult where
  is_valid : Bool
  error : Option String
  warnedMissingLimit : Bool
deriving Repr, DecidableEq

/-- The token loop of `validate` (security.py lines 46-55): on each
*top-level* token, reject a `DML` operation outside the allow-list and a
`Keyword`-typed word on the block-list.  A `group` node's `ttype` is `None`
in Python, so neither branch fires on it and nothing inside it is visited. -/
def checkTokens : List SToken → Option String
  | [] => none
  | .atom tt v :: ts =>
    let uv := pyStripS (upperS v)
    if tt == .dml && !(SQL_ALLOWED_OPERATIONS.contains uv) then
      some ("Operation '" ++ uv ++ "' is not allowed. Only SELECT queries are permitted.")
    else if tt == .keyword && blockedKeywords.contains uv then
      some ("Keyword '" ++ uv ++ "' is not allowed for security reasons.")
    else checkTokens ts
  | .group _ :: ts => checkTokens ts

/-- `SQLSecurityValidator._is_select_only` (security.py lines 71-76): the
first top-level `DML` token must be `SELECT`; no `DML` token means `False`. -/
def isSelectOnly : List SToken → Bool
  | [] => false
  | .atom .dml v :: _ => pyStripS (upperS v) == "SELECT"
  | _ :: ts => isSelectOnly ts

/-- `SQLSecurityValidator._has_limit` (security.py lines 78-81): a
case-insensitive substring test for `LIMIT`. -/
def hasLimit (sql : String) : Bool := hasSub "LIMIT".toList (upperL sql.toList)

/-- `SQLSecurityValidator.validate` (security.py lines 27-69). -/
def validate (sql : String) : ValidationResult :=
  if (pyStripL sql.toList).isEmpty then
    ⟨false, some "Empty SQL query", false⟩
  else
    let statement := parseStatement sql
    if statement.isEmpty then ⟨false, some "Invalid SQL syntax", false⟩
    else
      match checkTokens statement with
      | some err => ⟨false, some err, false⟩
      | none =>
        if !(isSelectOnly statement) then
          ⟨false, some "Only SELECT statements are allowed", false⟩
        else
          ⟨true, none, !(hasLimit sql)⟩

/-- `SQLSecurityValidator.sanitize` (security.py lines 83-94):
strip whitespace, strip trailing semicolons, and append
`LIMIT settings.SQL_MAX_ROWS` when `_has_limit` fails on the result. -/
def sanitize (sql : String) : String :=
  let s : String := ⟨rstripSemiL (pyStripL sql.toList)⟩
  if !(hasLimit s) then s ++ " LIMIT " ++ toString SQL_MAX_ROWS else s

/-! ## `SQLGenerationChain` (app/llm/chains.py) -/

/-- The regex search `FROM\s+LIMIT` of chains.py line 224: some occurrence of
`FROM`, then at least one whitespace character, then `LIMIT`. -/
def fromWsLimit (l : List Char) : Bool :=
  (List.range (l.length + 1)).any fun i =>
    subAt "FROM".toList l i &&
      (let rest := l.drop (i + 4)
       let ws := rest.takeWhile pyIsSpace
       !ws.isEmpty && "LIMIT".toList.isPrefixOf (rest.drop ws.length))

/-- The `from_index >= 0` block of `_validate_sql_completeness` (chains.py
lines 203-212): the text after the first occurrence of `FROM`, stripped,
must be non-empty and must not start with `LIMIT`.  (The second
`startswith('LIMIT')` test at lines 211-212 is unreachable — the first
already returned.) -/
def checkAfterFrom (u : List Char) : Option String :=
  match indexOfSub "FROM".toList u with
  | some i =>
    if (pyStripL (u.drop (i + 4))).isEmpty ||
        "LIMIT".toList.isPrefixOf (pyStripL (u.drop (i + 4))) then
      some "Query missing table name after FROM clause"
    else none
  | none => none

/-- `SQLGenerationChain._validate_sql_completeness` (chains.py lines
185-227) over the uppercased, stripped query text.  Returns an error message
when the generated SQL is incomplete, `none` when it passes.  (The block at
lines 215-221 inspects the text after `LIMIT` and then does nothing —
`pass` — so it is not modelled as a rejection.) -/
def validateCompletenessCore (u : List Char) : Option String :=
  if !("SELECT".toList.isPrefixOf u) then some "Query must start with SELECT"
  else if !(hasSub "FROM".toList u) then some "Query missing FROM clause"
  else
    match checkAfterFrom u with
    | some e => some e
    | none =>
      if fromWsLimit u then
        some "Query has LIMIT immediately after FROM - missing table name or JOIN clause"
      else none

/-- `SQLGenerationChain._validate_sql_completeness`:
`sql_upper = sql.upper().strip()`, then the checks. -/
def validateSqlCompleteness (sql : String) : Option String :=
  validateCompletenessCore (pyStripL (upperL sql.toList))

/-- The claim's shape of an incomplete candidate: the token immediately
after the first occurrence of `FROM` (in the uppercased, stripped text) is
the literal `LIMIT`. -/
def fromDirectlyFollowedByLimit (sql : String) : Bool :=
  match indexOfSub "FROM".toList (pyStripL (upperL sql.toList)) with
  | some i => "LIMIT".toList.isPrefixOf
      (pyStripL ((pyStripL (upperL sql.toList)).drop (i + 4)))
  | none => false

/-- `SQLGenerationChain.generate`, from the point where the SQL candidate has
been extracted from the model response (chains.py lines 47-72): `none` means
extraction failed; the completeness check gates success. -/
def generateFromExtracted (sql : Option String) : Bool × Option String × Option String :=
  match sql with
  | none => (false, none, some "Failed to extract SQL from LLM response")
  | some s =>
    match validateSqlCompleteness s with
    | some err => (false, none, some ("Generated SQL is incomplete: " ++ err))
    | none => (true, some s, none)

/-- The SQL-generation gate of `ChatService.handle_question`
(chat_service.py lines 180-217): when `sql_success` is false the service
returns a failure response at once; `sql_executor.execute` — the only call
site through which generated SQL reaches `SQLSecurityValidator.validate` —
runs only on the success branch (line 217). -/
structure SqlGenStage where
  sql_success : Bool
  sql_query : Option String
  executorCalled : Bool
deriving Repr, DecidableEq

/-- `ChatService.handle_question` at the generation step: the executor (and
with it the security validator) is invoked iff generation succeeded. -/
def handleGeneratedSql (gen : Bool × Option String × Option String) : SqlGenStage :=
  if gen.1 then ⟨true, gen.2.1, true⟩ else ⟨false, none, false⟩

/-! ## `QueryIntentDetector` (app/llm/query_intent.py)

Every pattern of the source is an alternation of plain (lower-case) literals,
except `does.*affect`, which is an occurrence of `does` followed anywhere
later by `affect`.  `re.search(pattern, q, re.IGNORECASE)` over the already
lower-cased question is therefore a substring test per alternative. -/

/-- One alternative of a pattern: a literal, or `a.*b`. -/
inductive PatAlt where
  | lit (s : String)
  | seqTwo (a b : String)
deriving Repr, DecidableEq

/-- Does one alternative match (as `re.search`, i.e. anywhere)? -/
def altMatches (q : List Char) : PatAlt → Bool
  | .lit s => hasSub s.toList q
  | .seqTwo a b =>
    match indexOfSub a.toList q with
    | none => false
    | some i => hasSub b.toList (q.drop (i + a.toList.length))

/-- Does the pattern (an alternation) match the question? -/
def patMatches (q : List Char) (alts : List PatAlt) : Bool := alts.any (altMatches q)

/-- `QueryIntentDetector.LIST_PATTERNS`. -/
def LIST_PATTERNS : List (List PatAlt) :=
  [[.lit "عرض", .lit "أعرض", .lit "اعرض", .lit "عرض جميع", .lit "أظهر", .lit "أظهر جميع",
    .lit "show", .lit "list", .lit "display", .lit "get all"],
   [.lit "جميع", .lit "كل", .lit "all", .lit "every"],
   [.lit "ما هي", .lit "ما هم", .lit "what are", .lit "what is"]]

/-- `QueryIntentDetector.AGGREGATE_PATTERNS`. -/
def AGGREGATE_PATTERNS : List (List PatAlt) :=
  [[.lit "كم", .lit "عدد", .lit "count", .lit "how many", .lit "total", .lit "sum",
    .lit "average", .lit "avg", .lit "متوسط", .lit "إجمالي"],
   [.lit "أكثر", .lit "أقل", .lit "most", .lit "least", .lit "highest", .lit "lowest",
    .lit "الأكثر", .lit "الأقل"],
   [.lit "أعلى", .lit "أقل", .lit "top", .lit "bottom", .lit "maximum", .lit "minimum"]]

/-- `QueryIntentDetector.COMPARISON_PATTERNS`. -/
def COMPARISON_PATTERNS : List (List PatAlt) :=
  [[.lit "قارن", .lit "مقارنة", .lit "compare", .lit "comparison", .lit "versus", .lit "vs",
    .lit "مقارنة بين"],
   [.lit "أفضل", .lit "أسوأ", .lit "better", .lit "worse", .lit "best", .lit "worst"],
   [.lit "أكثر من", .lit "أقل من", .lit "more than", .lit "less than", .lit "greater",
    .lit "smaller"]]

/-- `QueryIntentDetector.TREND_PATTERNS`. -/
def TREND_PATTERNS : List (List PatAlt) :=
  [[.lit "اتجاه", .lit "اتجاهات", .lit "trend", .lit "trends", .lit "تطور", .lit "تطورات"],
   [.lit "بمرور الوقت", .lit "over time", .lit "over the years", .lit "خلال", .lit "during"],
   [.lit "نمو", .lit "انخفاض", .lit "growth", .lit "decline", .lit "increase", .lit "decrease"]]

/-- `QueryIntentDetector.CORRELATION_PATTERNS`. -/
def CORRELATION_PATTERNS : List (List PatAlt) :=
  [[.lit "علاقة", .lit "ارتباط", .lit "relationship", .lit "correlation", .lit "correlate"],
   [.lit "هل يؤثر", .seqTwo "does" "affect", .lit "impact", .lit "تأثير"],
   [.lit "يرتبط", .lit "related", .lit "linked", .lit "connected"]]

/-- Does any pattern of the category match? -/
def anyMatched (pats : List (List PatAlt)) (q : List Char) : Bool := pats.any (patMatches q)

/-- How many patterns of the category match (`_calculate_confidence`). -/
def countMatched (pats : List (List PatAlt)) (q : List Char) : Nat :=
  (pats.filter (patMatches q)).length

/-- `QueryIntentDetector._detect_intent_type` (lines 94-108): fixed
precedence, first matching category wins. -/
def detectIntentType (q : List Char) : String :=
  if anyMatched CORRELATION_PATTERNS q then "correlation"
  else if anyMatched TREND_PATTERNS q then "trend"
  else if anyMatched COMPARISON_PATTERNS q then "comparison"
  else if anyMatched AGGREGATE_PATTERNS q then "aggregate"
  else if anyMatched LIST_PATTERNS q then "list"
  else "unknown"

/-- `known_tables` of `_extract_entities`. -/
def knownTables : List String :=
  ["film", "category", "actor", "customer", "rental", "payment",
   "store", "staff", "inventory", "address", "city", "country",
   "language", "film_actor", "film_category"]

/-- The regex `\b{table}\b`: an occurrence of `t` in `q` with no word
character (`[A-Za-z0-9_]`; the source patterns are ASCII) on either side. -/
def wordBounded (t q : List Char) : Bool :=
  (List.range (q.length + 1)).any fun i =>
    subAt t q i &&
      (if i = 0 then true else
        match q.get? (i - 1) with
        | some c => !(isWordChar c)
        | none => true) &&
      (match q.get? (i + t.length) with
       | some c => !(isWordChar c)
       | none => true)

/-- `QueryIntentDetector._extract_entities` (lines 110-133): a table is
reported when `\btable\b`, `{table}s` or `{table}es` matches.  The result is
duplicate-free by construction; the source's final `list(set(...))` only
reorders it (Python set order is unspecified), which no claim depends on. -/
def extractEntities (q : List Char) : List String :=
  knownTables.filter fun t =>
    wordBounded t.toList q || hasSub (t ++ "s").toList q || hasSub (t ++ "es").toList q

/-- `metric_keywords` of `_extract_metrics`. -/
def metricKeywords : List (String × List PatAlt) :=
  [("revenue", [.lit "إيراد", .lit "revenue", .lit "income", .lit "money", .lit "مبلغ"]),
   ("count", [.lit "عدد", .lit "count", .lit "number", .lit "quantity"]),
   ("price", [.lit "سعر", .lit "price", .lit "cost", .lit "تكلفة"]),
   ("rate", [.lit "معدل", .lit "rate", .lit "rating", .lit "تقييم"]),
   ("amount", [.lit "مبلغ", .lit "amount", .lit "value", .lit "قيمة"])]

/-- `QueryIntentDetector._extract_metrics` (lines 135-151). -/
def extractMetrics (q : List Char) : List String :=
  (metricKeywords.filter fun mk => patMatches q mk.2).map Prod.fst

/-- `QueryIntentDetector._calculate_confidence` (lines 153-175). -/
def calculateConfidence (intentType : String) (q : List Char) : ℚ :=
  if intentType == "unknown" then 3/10
  else
    let nMatches :=
      if intentType == "list" then countMatched LIST_PATTERNS q
      else if intentType == "aggregate" then countMatched AGGREGATE_PATTERNS q
      else if intentType == "comparison" then countMatched COMPARISON_PATTERNS q
      else if intentType == "trend" then countMatched TREND_PATTERNS q
      else if intentType == "correlation" then countMatched CORRELATION_PATTERNS q
      else 0
    if 2 ≤ nMatches then 9/10 else if nMatches = 1 then 7/10 else 5/10

/-- The dictionary `detect` returns (query_intent.py lines 75-82). -/
structure Intent where
  type : String
  entities : List String
  metrics : List String
  confidence : ℚ
  analysis_required : Bool
  analysis_type : Option String
deriving Repr, DecidableEq

/-- `QueryIntentDetector.detect` (lines 45-92). -/
def detect (question : String) : Intent :=
  let q := lowerL question.toList
  let intentType := detectIntentType q
  let required := ["correlation", "comparison", "trend", "aggregate"].contains intentType
  { type := intentType
    entities := extractEntities q
    metrics := extractMetrics q
    confidence := calculateConfidence intentType q
    analysis_required := required
    analysis_type := if required then some "statistical" else none }

/-! ## `StatisticalAnalysisService` (app/services/statistical_analysis.py)

The service receives the executor's rows (a list of column-name → value
dicts) and builds a `pd.DataFrame`.  Cells are embedded as a tagged union
(null / number / text — the value kinds the analyses distinguish), numbers
exactly as `ℚ`.  A DataFrame column is numeric (`select_dtypes(np.number)`)
exactly when it holds at least one number and nothing but numbers and nulls
(an all-null or mixed column gets the `object` dtype, as in pandas);
every non-numeric column is an `object` column here (no datetime cells are
modelled — no claim involves them).  `pd.isna` results are `Option`;
`Series.corr`, `mean`, `dropna`, `describe` skip nulls as pandas does.
The float arithmetic of the source is embedded as exact arithmetic
(`ℝ` where square roots appear), and `round(x, n)` as round-half-to-even. -/

/-- A cell value of a result row. -/
inductive Cell where
  | null
  | num (q : ℚ)
  | str (s : String)
deriving Repr, DecidableEq

/-- A row as the executor returns it: column name → value, names unique. -/
abbrev Row := List (String × Cell)

/-- Keep the first occurrence of each name (pandas column order for a list
of dicts: union of keys in first-seen order). -/
def dedupFirst : List String → List String
  | [] => []
  | x :: xs => x :: (dedupFirst xs).filter (fun y => y ≠ x)

/-- The DataFrame's column names for `pd.DataFrame(data)`. -/
def colNames (data : List Row) : List String :=
  dedupFirst (data.flatMap (fun r => r.map Prod.fst))

/-- `pd.DataFrame(data)`: ordered named columns; a row without the key
contributes a null (pandas: NaN). -/
def toDFrame (data : List Row) : List (String × List Cell) :=
  (colNames data).map fun n => (n, data.map (fun r => (r.lookup n).getD Cell.null))

/-- Is the cell a number? -/
def Cell.isNum : Cell → Bool
  | .num _ => true
  | _ => false

/-- Is the cell a null? -/
def Cell.isNull : Cell → Bool
  | .null => true
  | _ => false

/-- Numeric dtype inference for one column (see the section comment). -/
def isNumericCol (cells : List Cell) : Bool :=
  cells.any Cell.isNum && cells.all (fun c => c.isNum || c.isNull)

/-- `df.select_dtypes(include=[np.number]).columns.tolist()`. -/
def numericCols (df : List (String × List Cell)) : List String :=
  (df.filter fun c => isNumericCol c.2).map Prod.fst

/-- `df.select_dtypes(include=['object']).columns.tolist()`. -/
def textCols (df : List (String × List Cell)) : List String :=
  (df.filter fun c => !(isNumericCol c.2)).map Prod.fst

/-- `df[name]` (first column of that name). -/
def getCol (df : List (String × List Cell)) (n : String) : List Cell :=
  (df.lookup n).getD []

/-- A column as an option-valued numeric series. -/
def colNums (cells : List Cell) : List (Option ℚ) :=
  cells.map fun c => match c with
  | .num q => some q
  | _ => none

/-- `series.dropna().tolist()` for a numeric column. -/
def nonNull (cells : List Cell) : List ℚ :=
  cells.filterMap fun c => match c with
  | .num q => some q
  | _ => none

/-- Arithmetic mean (`np.mean`, `Series.mean`); 0 on the empty list (the
code never takes a mean of an empty series on the paths modelled here). -/
def meanQ (l : List ℚ) : ℚ := l.sum / l.length

/-- Deviations from the mean. -/
def sdev (l : List ℚ) : List ℚ := l.map (fun x => x - meanQ l)

/-- Centered product sum `Σ (xᵢ - x̄)(yᵢ - ȳ)` — the building block of the
Pearson coefficient and of the sample variance. -/
def sxy (xs ys : List ℚ) : ℚ := (List.zipWith (fun a b => a * b) (sdev xs) (sdev ys)).sum

/-- `df[[x, y]].dropna()`: the rows where both series have a value. -/
def pairsComplete (xs ys : List (Option ℚ)) : List (ℚ × ℚ) :=
  (xs.zip ys).filterMap fun p => match p.1, p.2 with
  | some a, some b => some (a, b)
  | _, _ => none

/-- `Series.corr` (Pearson) on complete pairs: `none` is pandas' NaN
(a zero-variance side, or fewer than two points). -/
noncomputable def pearson (ps : List (ℚ × ℚ)) : Option ℝ :=
  let xs := ps.map Prod.fst
  let ys := ps.map Prod.snd
  if sxy xs xs = 0 ∨ sxy ys ys = 0 then none
  else some ((sxy xs ys : ℝ) / (Real.sqrt ((sxy xs xs : ℚ) : ℝ) * Real.sqrt ((sxy ys ys : ℚ) : ℝ)))

/-- Python `round` to an integer: round half to even. -/
def bankerRoundQ (q : ℚ) : ℤ :=
  let f := ⌊q⌋
  let r := q - f
  if r < 1/2 then f
  else if 1/2 < r then f + 1
  else if 2 ∣ f then f else f + 1

/-- Python `round(q, d)` over exact rationals. -/
def roundToQ (d : Nat) (q : ℚ) : ℚ := (bankerRoundQ (q * 10 ^ d) : ℚ) / 10 ^ d

/-- Python `round` to an integer over `ℝ`: round half to even. -/
noncomputable def bankerRoundR (x : ℝ) : ℤ :=
  let f := ⌊x⌋
  let r := x - f
  if r < 1/2 then f
  else if 1/2 < r then f + 1
  else if 2 ∣ f then f else f + 1

/-- Python `round(x, d)` over `ℝ`. -/
noncomputable def roundToR (d : Nat) (x : ℝ) : ℝ := (bankerRoundR (x * 10 ^ d) : ℝ) / 10 ^ d

/-- `StatisticalAnalysisService._interpret_correlation` (lines 413-430). -/
noncomputable def interpretCorrelation (v : ℝ) : String × String :=
  let a := |v|
  let strength :=
    if a < 0.2 then "very_weak"
    else if a < 0.4 then "weak"
    else if a < 0.6 then "moderate"
    else if a < 0.8 then "strong"
    else "very_strong"
  let direction := if 0 ≤ v then "positive" else "negative"
  (strength, direction)

/-- The `statistical_result` dictionary, per analysis branch.  The field
names follow the keys of the source's dictionaries. -/
inductive StatResult where
  | empty
  | corr (coefficient : ℝ) (strength direction x_variable y_variable : String)
      (sample_size : ℕ)
  | cmpGrouped (groups : List (String × ℚ × ℚ × ℕ)) (highest lowest : Option String)
      (metric group_by : String)
  | cmpSimple (average maximum minimum : ℚ) (metric : String)
  | trendR (direction : String) (strength : ℚ) (metric : String)
      (first_half_avg second_half_avg : ℚ)
  | agg (mean median std minv maxv : Option ℝ) (count : ℕ) (metric : String)

/-- The `coefficient` field, when present. -/
def StatResult.coefficient? : StatResult → Option ℝ
  | .corr c _ _ _ _ _ => some c
  | _ => none

/-- The correlation `strength` field, when present. -/
def StatResult.strength? : StatResult → Option String
  | .corr _ s _ _ _ _ => some s
  | _ => none

/-- The `direction` field (correlation or trend), when present. -/
def StatResult.direction? : StatResult → Option String
  | .corr _ _ d _ _ _ => some d
  | .trendR d _ _ _ _ => some d
  | _ => none

/-- The return dictionary of `analyze` (statistical_analysis.py lines
35-42), minus the natural-language `interpretation` string (see the section
comment: no claim mentions it). -/
structure AnalysisOutput where
  has_analysis : Bool
  analysis_type : Option String
  statistical_result : StatResult
  visualization_type : String

/-- Python truthiness of an optional string (`if not x_col`): `None` and
the empty string are falsy. -/
def strFalsy : Option String → Bool
  | none => true
  | some s => s.isEmpty

/-- Does the metric name match the column name
(`metric.lower() in col.lower() or col.lower() in metric.lower()`)? -/
def metricColMatch (m c : String) : Bool :=
  hasSub (lowerL m.toList) (lowerL c.toList) || hasSub (lowerL c.toList) (lowerL m.toList)

/-- The inner `for col in numeric_cols` loop of
`_identify_correlation_columns` for one metric: sets `x_col` at the first
match, sets `y_col` and breaks at the next. -/
def innerScan (m : String) : List String → Option String × Option String →
    Option String × Option String
  | [], st => st
  | c :: cs, (x, y) =>
    if metricColMatch m c then
      if strFalsy x then innerScan m cs (some c, y)
      else if strFalsy y then (x, some c)
      else innerScan m cs (x, y)
    else innerScan m cs (x, y)

/-- `StatisticalAnalysisService._identify_correlation_columns`
(lines 385-411). -/
def identifyCorrelationColumns (ncols : List String) (metrics : List String) :
    Option String × Option String :=
  if ncols.length < 2 then (none, none)
  else
    let st := metrics.foldl (fun st m => innerScan m ncols st) (none, none)
    if strFalsy st.1 || strFalsy st.2 then (ncols.get? 0, ncols.get? 1) else st

/-- Lines 106-110 of `_analyze_correlation`: the chosen `(x_col, y_col)` —
the identification result, re-falling back to the first two numeric columns
when either component is falsy (`if not x_col or not y_col`). -/
def corrColumnPick (ncols : List String) (metrics : List String) (c1 c2 : String) :
    String × String :=
  let pick := identifyCorrelationColumns ncols metrics
  if strFalsy pick.1 || strFalsy pick.2 then (c1, c2)
  else (pick.1.getD "", pick.2.getD "")

/-- The body of `_analyze_correlation` once the dropna'd pair list is in
hand (lines 114-162): fewer than 3 complete rows is insufficient data
(line 118).  When the column identification resolved both variables to the
*same* column, `df[[x_col, y_col]]` at line 117 built a frame with that
column duplicated, so `clean_df[x_col]` at line 127 is a two-column
DataFrame and its `corr` call raises; the `except` branch (lines 154-162)
then returns the failure dictionary (`has_analysis = False`, empty
`statistical_result`, scatter visualization).  Otherwise the Pearson
coefficient (NaN mapped to 0.0 at lines 129-130), its interpretation and
the sample size are reported. -/
noncomputable def corrFromClean (xc yc : String) (clean : List (ℚ × ℚ)) : AnalysisOutput :=
  if clean.length < 3 then ⟨false, some "correlation", .empty, "scatter"⟩
  else if xc == yc then ⟨false, some "correlation", .empty, "scatter"⟩
  else
    ⟨true, some "correlation",
      .corr (roundToR 3 ((pearson clean).getD 0))
        (interpretCorrelation ((pearson clean).getD 0)).1
        (interpretCorrelation ((pearson clean).getD 0)).2 xc yc clean.length,
      "scatter"⟩

/-- `StatisticalAnalysisService._analyze_correlation` (lines 86-162).
For distinct columns the `df[x].corr(df[y])` of line 114 and the
recomputation on the dropna'd frame at line 127 coincide (pandas `corr`
already ignores incomplete pairs), so one computation is embedded; line
114 itself never raises (`df[x_col]` is a Series even when
`x_col = y_col`), so the duplicate-column exception sits in
`corrFromClean` where line 127 sits. -/
noncomputable def analyzeCorrelation (df : List (String × List Cell)) (intent : Intent) :
    AnalysisOutput :=
  match numericCols df with
  | [] => ⟨false, some "correlation", .empty, "scatter"⟩
  | [_] => ⟨false, some "correlation", .empty, "scatter"⟩
  | c1 :: c2 :: _ =>
    corrFromClean
      (corrColumnPick (numericCols df) intent.metrics c1 c2).1
      (corrColumnPick (numericCols df) intent.metrics c1 c2).2
      (pairsComplete
        (colNums (getCol df (corrColumnPick (numericCols df) intent.metrics c1 c2).1))
        (colNums (getCol df (corrColumnPick (numericCols df) intent.metrics c1 c2).2)))

/-- The group key of a cell under `df.groupby` (null keys are dropped). -/
def groupKey : Cell → Option String
  | .str s => some s
  | _ => none

/-- First element maximising `f` (pandas `idxmax`: first winner on ties). -/
def argmaxBy {α : Type} (f : α → ℚ) : List α → Option α
  | [] => none
  | x :: xs => some (xs.foldl (fun b a => if f a > f b then a else b) x)

/-- First element minimising `f` (pandas `idxmin`). -/
def argminBy {α : Type} (f : α → ℚ) : List α → Option α
  | [] => none
  | x :: xs => some (xs.foldl (fun b a => if f a < f b then a else b) x)

/-- `StatisticalAnalysisService._analyze_comparison` (lines 164-248).
`df.groupby(group)[metric].agg(['mean','sum','count'])` is embedded as the
per-key mean/sum/count of the metric's non-null values, keys sorted
(pandas' default `sort=True`). -/
def analyzeComparison (df : List (String × List Cell)) : AnalysisOutput :=
  match numericCols df with
  | [] => ⟨false, some "comparison", .empty, "bar"⟩
  | m :: _ =>
    match textCols df with
    | g :: _ =>
      let pairs := (getCol df g).zip (getCol df m)
      let keys := (dedupFirst ((getCol df g).filterMap groupKey)).mergeSort
        (fun a b => decide (a ≤ b))
      let vals := fun k => pairs.filterMap fun p =>
        match groupKey p.1, p.2 with
        | some k', .num q => if k' = k then some q else none
        | _, _ => none
      let grouped := keys.map fun k => (k, meanQ (vals k), (vals k).sum, (vals k).length)
      let maxG := if grouped.length > 0 then argmaxBy (fun r => r.2.1) grouped else none
      let minG := if grouped.length > 0 then argminBy (fun r => r.2.1) grouped else none
      ⟨true, some "comparison",
        .cmpGrouped grouped (maxG.map Prod.fst) (minG.map Prod.fst) m g, "bar"⟩
    | [] =>
      let vs := nonNull (getCol df m)
      ⟨true, some "comparison",
        .cmpSimple (roundToQ 2 (meanQ vs)) (roundToQ 2 ((vs.max?).getD 0))
          (roundToQ 2 ((vs.min?).getD 0)) m, "bar"⟩

/-- `first_half = np.mean(values[:len(values)//2])` (line 284). -/
def firstHalfMean (values : List ℚ) : ℚ := meanQ (values.take (values.length / 2))

/-- `second_half = np.mean(values[len(values)//2:])` (line 285). -/
def secondHalfMean (values : List ℚ) : ℚ := meanQ (values.drop (values.length / 2))

/-- `trend_direction` (line 287): `increasing` iff the second half's mean
exceeds the first half's, else `decreasing`. -/
def trendDirection (values : List ℚ) : String :=
  if secondHalfMean values > firstHalfMean values then "increasing" else "decreasing"

/-- `trend_strength` (line 288). -/
def trendStrength (values : List ℚ) : ℚ :=
  if firstHalfMean values ≠ 0 then
    |secondHalfMean values - firstHalfMean values| / firstHalfMean values
  else 0

/-- The body of `_analyze_trend` once the metric column's non-null values
are in hand (lines 273-306). -/
def trendResult (m : String) (values : List ℚ) : AnalysisOutput :=
  if values.length < 2 then ⟨false, some "trend", .empty, "line"⟩
  else
    ⟨true, some "trend",
      .trendR (trendDirection values) (roundToQ 3 (trendStrength values)) m
        (roundToQ 2 (firstHalfMean values)) (roundToQ 2 (secondHalfMean values)),
      "line"⟩

/-- `StatisticalAnalysisService._analyze_trend` (lines 250-306). -/
def analyzeTrend (df : List (String × List Cell)) : AnalysisOutput :=
  match numericCols df with
  | [] => ⟨false, some "trend", .empty, "line"⟩
  | m :: _ => trendResult m (nonNull (getCol df m))

/-- `describe()`'s 50% percentile of a sorted sample (linear interpolation:
the middle value, or the average of the two middle values). -/
def medianQ (l : List ℚ) : ℚ :=
  let s := l.mergeSort (fun a b => decide (a ≤ b))
  if l.length % 2 = 1 then s.getD (l.length / 2) 0
  else (s.getD (l.length / 2 - 1) 0 + s.getD (l.length / 2) 0) / 2

/-- `StatisticalAnalysisService._analyze_aggregate` (lines 317-383):
`describe()` statistics of the first numeric column with `_safe_num`
guarding non-finite values — the sample standard deviation is NaN (here:
`none`) for fewer than two values. -/
noncomputable def analyzeAggregate (df : List (String × List Cell)) : AnalysisOutput :=
  match numericCols df with
  | [] => ⟨false, some "aggregate", .empty, "table"⟩
  | m :: _ =>
    let vs := nonNull (getCol df m)
    if vs.length = 0 then
      -- an empty sample would make the interpretation's float formatting
      -- raise, landing in the except-branch (unreachable: a numeric column
      -- holds at least one number)
      ⟨false, some "aggregate", .empty, "table"⟩
    else
      let std : Option ℝ :=
        if vs.length < 2 then none
        else some (Real.sqrt ((sxy vs vs : ℚ) / ((vs.length : ℚ) - 1)))
      ⟨true, some "aggregate",
        .agg (some (roundToR 2 ((meanQ vs : ℚ) : ℝ))) (some (roundToR 2 ((medianQ vs : ℚ) : ℝ)))
          (std.map (roundToR 2)) (some (roundToR 2 (((vs.min?).getD 0 : ℚ) : ℝ)))
          (some (roundToR 2 (((vs.max?).getD 0 : ℚ) : ℝ))) vs.length m, "bar"⟩

/-- `StatisticalAnalysisService._suggest_visualization` (lines 527-546). -/
def suggestVisualization (intentType : String) (df : List (String × List Cell)) : String :=
  let n := numericCols df
  let t := textCols df
  if intentType == "correlation" && 2 ≤ n.length then "scatter"
  else if intentType == "comparison" then
    (if !t.isEmpty && !n.isEmpty then "bar" else if !n.isEmpty then "bar" else "table")
  else if intentType == "trend" then "line"
  else if intentType == "aggregate" then (if !n.isEmpty then "bar" else "table")
  else "table"

/-- `StatisticalAnalysisService.analyze` (lines 26-84): empty input short-
circuits; otherwise build the frame and dispatch on the intent type. -/
noncomputable def analyze (data : List Row) (intent : Intent) (_question : String) :
    AnalysisOutput :=
  if data.isEmpty then ⟨false, none, .empty, "none"⟩
  else
    let df := toDFrame data
    if intent.type == "correlation" then analyzeCorrelation df intent
    else if intent.type == "comparison" then analyzeComparison df
    else if intent.type == "trend" then analyzeTrend df
    else if intent.type == "aggregate" then analyzeAggregate df
    else ⟨false, none, .empty, suggestVisualization intent.type df⟩

/-- Concrete input: an intent of type `correlation`. -/
def corrWitnessIntent : Intent := ⟨"correlation", [], [], 9/10, true, some "statistical"⟩

/-- Concrete input: ten rows with `y = 2x`. -/
def corrWitnessRows : List Row :=
  [[("x", Cell.num 1), ("y", Cell.num 2)], [("x", Cell.num 2), ("y", Cell.num 4)],
   [("x", Cell.num 3), ("y", Cell.num 6)], [("x", Cell.num 4), ("y", Cell.num 8)],
   [("x", Cell.num 5), ("y", Cell.num 10)], [("x", Cell.num 6), ("y", Cell.num 12)],
   [("x", Cell.num 7), ("y", Cell.num 14)], [("x", Cell.num 8), ("y", Cell.num 16)],
   [("x", Cell.num 9), ("y", Cell.num 18)], [("x", Cell.num 10), ("y", Cell.num 20)]]

/-- Concrete input: a correlation intent whose metrics `price` and
`amount` both match the column name `price_amount` by the substring test,
so `_identify_correlation_columns` resolves both variables to that one
column. -/
def corrDegenIntent : Intent :=
  ⟨"correlation", [], ["price", "amount"], 9/10, true, some "statistical"⟩

/-- Concrete input: three rows with `z = 2 * price_amount` — two perfectly
linearly related numeric columns with positive slope and no nulls. -/
def corrDegenRows : List Row :=
  [[("price_amount", Cell.num 1), ("z", Cell.num 2)],
   [("price_amount", Cell.num 2), ("z", Cell.num 4)],
   [("price_amount", Cell.num 3), ("z", Cell.num 6)]]

/-- Concrete input: an intent of type `trend`. -/
def trendWitnessIntent : Intent := ⟨"trend", [], [], 7/10, true, some "statistical"⟩

/-- Concrete input: six rows with the strictly increasing values 1..6. -/
def trendWitnessRows : List Row :=
  [[("v", Cell.num 1)], [("v", Cell.num 2)], [("v", Cell.num 3)],
   [("v", Cell.num 4)], [("v", Cell.num 5)], [("v", Cell.num 6)]]

/-! ## Helper lemmas: characters -/

lemma toNat_ofNat_valid (n : Nat) (h : n < 55296) : (Char.ofNat n).toNat = n := by
  have hv : n.isValidChar := Or.inl h
  rw [Char.ofNat, dif_pos hv]
  show (⟨⟨BitVec.ofNatLt n _⟩, _⟩ : Char).toNat = n
  simp [Char.toNat, UInt32.toNat, BitVec.toNat_ofNatLt]

lemma toUpper_cases (c : Char) :
    c.toUpper = c ∨ (97 ≤ c.toNat ∧ c.toNat ≤ 122 ∧ c.toUpper.toNat = c.toNat - 32) := by
  by_cases h : c.toNat ≥ 97 ∧ c.toNat ≤ 122
  · refine Or.inr ⟨h.1, h.2, ?_⟩
    show (Char.toUpper c).toNat = _
    unfold Char.toUpper
    rw [if_pos h]
    exact toNat_ofNat_valid _ (by omega)
  · refine Or.inl ?_
    show Char.toUpper c = c
    unfold Char.toUpper
    rw [if_neg h]

lemma toNat_inj_char {c d : Char} (h : c.toNat = d.toNat) : c = d := by
  have := congrArg Char.ofNat h
  rwa [Char.ofNat_toNat, Char.ofNat_toNat] at this

lemma beq_char_iff_toNat {c d : Char} : (c == d) = true ↔ c.toNat = d.toNat := by
  constructor
  · intro h
    rw [eq_of_beq h]
  · intro h
    rw [toNat_inj_char h]
    exact beq_self_eq_true d

lemma pyIsSpace_true_iff (c : Char) :
    pyIsSpace c = true ↔
      (c.toNat = 32 ∨ c.toNat = 9 ∨ c.toNat = 10 ∨ c.toNat = 13 ∨
        c.toNat = 11 ∨ c.toNat = 12) := by
  have h1 : (' ' : Char).toNat = 32 := rfl
  have h2 : ('\t' : Char).toNat = 9 := rfl
  have h3 : ('\n' : Char).toNat = 10 := rfl
  have h4 : ('\r' : Char).toNat = 13 := rfl
  have h5 : ('\x0b' : Char).toNat = 11 := rfl
  have h6 : ('\x0c' : Char).toNat = 12 := rfl
  simp only [pyIsSpace, Bool.or_eq_true, beq_char_iff_toNat, h1, h2, h3, h4, h5, h6]
  tauto

lemma semi_beq_iff (c : Char) : (c == ';') = true ↔ c.toNat = 59 := by
  have h : (';' : Char).toNat = 59 := rfl
  rw [beq_char_iff_toNat, h]

lemma uint32_le_iff (a b : UInt32) : a ≤ b ↔ a.toNat ≤ b.toNat := by
  rw [UInt32.le_def, BitVec.le_def]
  exact Iff.rfl

lemma isDigit_iff_toNat (c : Char) : c.isDigit = true ↔ 48 ≤ c.toNat ∧ c.toNat ≤ 57 := by
  show (decide (c.val ≥ 48) && decide (c.val ≤ 57)) = true ↔ _
  simp only [Bool.and_eq_true, decide_eq_true_eq]
  have e48 : ((48 : UInt32)).toNat = 48 := rfl
  have e57 : ((57 : UInt32)).toNat = 57 := rfl
  rw [ge_iff_le, uint32_le_iff, uint32_le_iff, e48, e57]
  exact Iff.rfl

lemma pyIsSpace_toUpper (c : Char) : pyIsSpace c.toUpper = pyIsSpace c := by
  rcases toUpper_cases c with h | ⟨h1, h2, h3⟩
  · rw [h]
  · have hu : pyIsSpace c.toUpper = false := by
      rw [← Bool.not_eq_true, pyIsSpace_true_iff]
      omega
    have hc : pyIsSpace c = false := by
      rw [← Bool.not_eq_true, pyIsSpace_true_iff]
      omega
    rw [hu, hc]

lemma semi_toUpper (c : Char) : (c.toUpper == ';') = (c == ';') := by
  rcases toUpper_cases c with h | ⟨h1, h2, h3⟩
  · rw [h]
  · have hu : (c.toUpper == ';') = false := by
      rw [← Bool.not_eq_true, semi_beq_iff]
      omega
    have hc : (c == ';') = false := by
      rw [← Bool.not_eq_true, semi_beq_iff]
      omega
    rw [hu, hc]

lemma not_space_of_isDigit {c : Char} (h : c.isDigit = true) : pyIsSpace c = false := by
  rw [isDigit_iff_toNat] at h
  rw [← Bool.not_eq_true, pyIsSpace_true_iff]
  omega

lemma not_semi_of_isDigit {c : Char} (h : c.isDigit = true) : (c == ';') = false := by
  rw [isDigit_iff_toNat] at h
  rw [← Bool.not_eq_true, semi_beq_iff]
  omega

/-! ## Helper lemmas: substrings and stripping -/

lemma hasSub_iff {p l : List Char} : hasSub p l = true ↔ p <:+: l := by
  constructor
  · intro h
    rcases List.any_eq_true.mp h with ⟨i, _, hsub⟩
    have hp : p <+: l.drop i := List.isPrefixOf_iff_prefix.mp hsub
    exact hp.isInfix.trans (List.drop_suffix i l).isInfix
  · rintro ⟨s, t, rfl⟩
    apply List.any_eq_true.mpr
    refine ⟨s.length, List.mem_range.mpr ?_, ?_⟩
    · simp only [List.length_append]
      omega
    · unfold subAt
      rw [List.append_assoc, List.drop_left]
      exact List.isPrefixOf_iff_prefix.mpr (List.prefix_append p t)

lemma infix_drop_left {q : Char → Bool} {p a b : List Char} (hp : p ≠ [])
    (hgood : ∀ c ∈ p, q c = false) (hbad : ∀ c ∈ a, q c = true)
    (h : p <:+: a ++ b) : p <:+: b := by
  induction a with
  | nil => simpa using h
  | cons x xs ih =>
    rcases List.infix_cons_iff.mp (by simpa using h) with hpre | hinf
    · obtain ⟨y, p', rfl⟩ := List.exists_cons_of_ne_nil hp
      rcases List.cons_prefix_cons.mp hpre with ⟨rfl, -⟩
      have hg := hgood y (by simp)
      have hb := hbad y (by simp)
      rw [hg] at hb
      exact absurd hb (by simp)
    · exact ih (fun c hc => hbad c (by simp [hc])) hinf

lemma infix_drop_right {q : Char → Bool} {p b c : List Char} (hp : p ≠ [])
    (hgood : ∀ x ∈ p, q x = false) (hbad : ∀ x ∈ c, q x = true)
    (h : p <:+: b ++ c) : p <:+: b := by
  rw [← List.reverse_infix] at h ⊢
  rw [List.reverse_append] at h
  exact infix_drop_left (by simpa using hp)
    (fun x hx => hgood x (List.mem_reverse.mp hx))
    (fun x hx => hbad x (List.mem_reverse.mp hx)) h

lemma rdropWhileL_append (p : Char → Bool) (l : List Char) :
    rdropWhileL p l ++ (l.reverse.takeWhile p).reverse = l := by
  unfold rdropWhileL
  rw [← List.reverse_append, List.takeWhile_append_dropWhile, List.reverse_reverse]

lemma mem_rev_takeWhile {p : Char → Bool} {l : List Char} {c : Char}
    (h : c ∈ (l.reverse.takeWhile p).reverse) : p c = true :=
  List.mem_takeWhile_imp (List.mem_reverse.mp h)

lemma strip_decomp (l : List Char) :
    ∃ a z, l = a ++ rstripSemiL (pyStripL l) ++ z ∧
      (∀ c ∈ a, pyIsSpace c = true) ∧
      (∀ c ∈ z, pyIsSpace c = true ∨ (c == ';') = true) := by
  refine ⟨l.takeWhile pyIsSpace,
    ((pyStripL l).reverse.takeWhile (· == ';')).reverse ++
      ((l.dropWhile pyIsSpace).reverse.takeWhile pyIsSpace).reverse, ?_, ?_, ?_⟩
  · conv_lhs => rw [← List.takeWhile_append_dropWhile (p := pyIsSpace) (l := l)]
    conv_lhs =>
      rw [← rdropWhileL_append pyIsSpace (l.dropWhile pyIsSpace)]
    show _ ++ ((pyStripL l) ++ _) = _
    conv_lhs => rw [← rdropWhileL_append (· == ';') (pyStripL l)]
    show _ ++ ((rstripSemiL (pyStripL l) ++ _) ++ _) = _
    simp [List.append_assoc]
  · exact fun c hc => List.mem_takeWhile_imp hc
  · intro c hc
    rcases List.mem_append.mp hc with hc | hc
    · exact Or.inr (mem_rev_takeWhile (p := (· == ';')) hc)
    · exact Or.inl (mem_rev_takeWhile (p := pyIsSpace) hc)

lemma limit_chars_good :
    ∀ c ∈ "LIMIT".toList, (pyIsSpace c || (c == ';')) = false := by decide

lemma upper_margin_bad {z : List Char}
    (hz : ∀ c ∈ z, pyIsSpace c = true ∨ (c == ';') = true) :
    ∀ c ∈ upperL z, (pyIsSpace c || (c == ';')) = true := by
  intro c hc
  rcases List.mem_map.mp hc with ⟨d, hd, rfl⟩
  rcases hz d hd with h | h
  · rw [Bool.or_eq_true, pyIsSpace_toUpper]
    exact Or.inl h
  · rw [Bool.or_eq_true, semi_toUpper]
    exact Or.inr h

lemma hasLimit_strip_anti {l : List Char}
    (h : hasSub "LIMIT".toList (upperL l) = true) :
    hasSub "LIMIT".toList (upperL (rstripSemiL (pyStripL l))) = true := by
  obtain ⟨a, z, hdec, ha, hz⟩ := strip_decomp l
  rw [hasSub_iff] at h ⊢
  rw [hdec] at h
  unfold upperL at h
  rw [List.map_append, List.map_append] at h
  have h1 : "LIMIT".toList <:+: upperL (rstripSemiL (pyStripL l)) ++ upperL z := by
    refine infix_drop_left (q := fun c => pyIsSpace c || (c == ';')) (by decide)
      limit_chars_good ?_ (by simpa [upperL] using h)
    exact upper_margin_bad (fun c hc => Or.inl (ha c hc))
  exact infix_drop_right (q := fun c => pyIsSpace c || (c == ';')) (by decide)
    limit_chars_good (upper_margin_bad hz) h1

lemma hasLimit_strip_mono {l : List Char}
    (h : hasSub "LIMIT".toList (upperL (rstripSemiL (pyStripL l))) = true) :
    hasSub "LIMIT".toList (upperL l) = true := by
  obtain ⟨a, z, hdec, -, -⟩ := strip_decomp l
  rw [hasSub_iff] at h ⊢
  rw [hdec]
  unfold upperL
  rw [List.map_append, List.map_append]
  exact h.trans ⟨List.map Char.toUpper a, List.map Char.toUpper z, rfl⟩

lemma dropWhile_eq_self_of_head {p : Char → Bool} {l : List Char}
    (h : ∀ x, l.head? = some x → p x = false) : l.dropWhile p = l := by
  cases l with
  | nil => rfl
  | cons x xs =>
    rw [List.dropWhile_cons, h x rfl]
    simp

lemma rdropWhileL_eq_self_of_last {p : Char → Bool} {l : List Char}
    (h : ∀ x, l.reverse.head? = some x → p x = false) : rdropWhileL p l = l := by
  unfold rdropWhileL
  rw [dropWhile_eq_self_of_head h, List.reverse_reverse]

lemma dropWhile_head_false {p : Char → Bool} {l : List Char} {x : Char} {xs : List Char}
    (h : l.dropWhile p = x :: xs) : p x = false := by
  have hd := List.head?_dropWhile_not p l
  rw [h] at hd
  exact hd

/-! ## Helper lemmas: the validator's token loop -/

lemma hasLimit_mk (l : List Char) : hasLimit ⟨l⟩ = hasSub "LIMIT".toList (upperL l) := rfl

lemma hasLimit_eq (sql : String) :
    hasLimit sql = hasSub "LIMIT".toList (upperL sql.toList) := rfl

/-! ## Claims about the Security Validator -/

/-- Claim C2: for a non-empty SQL string that passed `validate`, when no
`LIMIT` is present (in the code's sense: the case-insensitive substring
test `_has_limit`), `sanitize` returns the query with surrounding whitespace
and trailing semicolons stripped and ` LIMIT <SQL_MAX_ROWS>` appended, with
`SQL_MAX_ROWS = 1000` (the config default); when a `LIMIT` is already
present it returns the stripped query unchanged, appending nothing. -/
theorem C2_sanitize_limit (sql : String) (_hne : sql ≠ "")
    (_hv : (validate sql).is_valid = true) :
    (hasLimit sql = false →
      sanitize sql = (⟨rstripSemiL (pyStripL sql.toList)⟩ : String) ++ " LIMIT " ++
        toString SQL_MAX_ROWS ∧ SQL_MAX_ROWS = 1000) ∧
    (hasLimit sql = true →
      sanitize sql = (⟨rstripSemiL (pyStripL sql.toList)⟩ : String)) := by
  constructor
  · intro h0
    refine ⟨?_, rfl⟩
    have hinner : hasLimit (⟨rstripSemiL (pyStripL sql.toList)⟩ : String) = false := by
      rw [hasLimit_mk]
      by_contra hc
      rw [Bool.not_eq_false] at hc
      rw [hasLimit_eq] at h0
      rw [hasLimit_strip_mono hc] at h0
      exact Bool.noConfusion h0
    simp only [sanitize, hinner, Bool.not_false, if_true]
  · intro h1
    have hinner : hasLimit (⟨rstripSemiL (pyStripL sql.toList)⟩ : String) = true := by
      rw [hasLimit_mk]
      rw [hasLimit_eq] at h1
      exact hasLimit_strip_anti h1
    simp only [sanitize, hinner, Bool.not_true]
    simp

/-- Claim C2, witness: `SELECT * FROM films` validates, has no LIMIT, and
sanitizes to `SELECT * FROM films LIMIT 1000`. -/
theorem C2_sanitize_limit_witness :
    ("SELECT * FROM films" : String) ≠ "" ∧
    (validate "SELECT * FROM films").is_valid = true ∧
    hasLimit "SELECT * FROM films" = false ∧
    sanitize "SELECT * FROM films" = "SELECT * FROM films LIMIT 1000" := by
  refine ⟨by decide, rfl, rfl, ?_⟩
  have h := ((C2_sanitize_limit "SELECT * FROM films" (by decide) rfl).1 rfl).1
  rw [h]
  rfl

/-- Claim C9: `sanitize` is idempotent on SQL that already ends with a
numeric `LIMIT` clause (`... LIMIT <digits>`, case-insensitively). -/
theorem C9_sanitize_idempotent (sql : String)
    (h : ∃ pre ds : List Char, upperL sql.toList = pre ++ "LIMIT ".toList ++ ds ∧
      ds ≠ [] ∧ ∀ c ∈ ds, c.isDigit = true) :
    sanitize (sanitize sql) = sanitize sql := by
  obtain ⟨pre, ds, hu, hds, hdig⟩ := h
  set l := sql.toList with hl
  obtain ⟨d, es, hrev⟩ : ∃ d es, ds.reverse = d :: es := by
    cases hrevc : ds.reverse with
    | nil => exact absurd (by simpa using congrArg List.reverse hrevc) hds
    | cons d es => exact ⟨d, es, rfl⟩
  have hdmem : d ∈ ds := by
    have : d ∈ ds.reverse := by rw [hrev]; exact List.mem_cons_self d es
    exact List.mem_reverse.mp this
  have hddig : d.isDigit = true := hdig d hdmem
  have hulrev : (upperL l).reverse.head? = some d := by
    rw [hu]
    rw [List.reverse_append, List.reverse_append, List.head?_append, List.head?_append, hrev]
    rfl
  obtain ⟨c0, hc0, hc0u⟩ : ∃ c0, l.reverse.head? = some c0 ∧ c0.toUpper = d := by
    have : (upperL l).reverse = l.reverse.map Char.toUpper := by
      unfold upperL
      rw [List.map_reverse]
    rw [this, List.head?_map] at hulrev
    cases hh : l.reverse.head? with
    | none => rw [hh] at hulrev; exact Option.noConfusion hulrev
    | some c0 =>
      rw [hh] at hulrev
      exact ⟨c0, rfl, Option.some.inj hulrev⟩
  have hc0sp : pyIsSpace c0 = false := by
    rw [← pyIsSpace_toUpper, hc0u]
    exact not_space_of_isDigit hddig
  have hc0semi : (c0 == ';') = false := by
    rw [← semi_toUpper, hc0u]
    exact not_semi_of_isDigit hddig
  have hc0mem : c0 ∈ l := List.mem_reverse.mp (List.mem_of_mem_head? (by simp [hc0]))
  set r := l.dropWhile pyIsSpace with hr
  have hrne : r ≠ [] := by
    intro hnil
    have hall := List.dropWhile_eq_nil_iff.mp hnil
    rw [hall c0 hc0mem] at hc0sp
    exact Bool.noConfusion hc0sp
  have hrrev : r.reverse.head? = some c0 := by
    have hdecomp : l = l.takeWhile pyIsSpace ++ r := (List.takeWhile_append_dropWhile _ _).symm
    have : l.reverse = r.reverse ++ (l.takeWhile pyIsSpace).reverse := by
      conv_lhs => rw [hdecomp]
      rw [List.reverse_append]
    rw [this, List.head?_append] at hc0
    cases hh : r.reverse.head? with
    | none =>
      exfalso
      rw [List.head?_eq_none_iff] at hh
      exact hrne (by simpa using congrArg List.reverse hh)
    | some c' =>
      rw [hh] at hc0
      simpa using hc0
  have hstripr : pyStripL l = r := by
    unfold pyStripL
    rw [← hr]
    exact rdropWhileL_eq_self_of_last (fun x hx => by
      rw [hrrev] at hx
      rw [← Option.some.inj hx]
      exact hc0sp)
  have hsemir : rstripSemiL r = r :=
    rdropWhileL_eq_self_of_last (fun x hx => by
      rw [hrrev] at hx
      rw [← Option.some.inj hx]
      exact hc0semi)
  have hlim : hasSub "LIMIT".toList (upperL l) = true := by
    rw [hasSub_iff]
    refine ⟨pre, [' '] ++ ds, ?_⟩
    rw [hu]
    simp [List.append_assoc]
  have hlimr : hasSub "LIMIT".toList (upperL r) = true := by
    have := hasLimit_strip_anti (l := l) hlim
    rwa [hstripr, hsemir] at this
  have hsan1 : sanitize sql = (⟨r⟩ : String) := by
    simp only [sanitize, ← hl, hstripr, hsemir, hasLimit_mk, hlimr, Bool.not_true]
    simp
  rw [hsan1]
  have hrl : (⟨r⟩ : String).toList = r := rfl
  have hstripr2 : pyStripL r = r := by
    unfold pyStripL
    have hdw : r.dropWhile pyIsSpace = r := by
      apply dropWhile_eq_self_of_head
      intro x hx
      cases hrc : r with
      | nil => exact absurd hrc hrne
      | cons y ys =>
        rw [hrc] at hx
        have : y = x := by simpa using hx
        rw [← this]
        exact dropWhile_head_false (hr ▸ hrc)
    rw [hdw]
    exact rdropWhileL_eq_self_of_last (fun x hx => by
      rw [hrrev] at hx
      rw [← Option.some.inj hx]
      exact hc0sp)
  simp only [sanitize, hrl, hstripr2, hsemir, hasLimit_mk, hlimr, Bool.not_true]
  simp

/-- Claim C9, witness: `SELECT * FROM t LIMIT 10` ends with a numeric LIMIT
clause and `sanitize` is idempotent on it. -/
theorem C9_sanitize_idempotent_witness :
    (∃ pre ds : List Char, upperL ("SELECT * FROM t LIMIT 10" : String).toList =
        pre ++ "LIMIT ".toList ++ ds ∧ ds ≠ [] ∧ ∀ c ∈ ds, c.isDigit = true) ∧
    sanitize (sanitize "SELECT * FROM t LIMIT 10") = sanitize "SELECT * FROM t LIMIT 10" :=
  ⟨⟨"SELECT * FROM T ".toList, "10".toList, by decide, by decide, by decide⟩,
    C9_sanitize_idempotent _
      ⟨"SELECT * FROM T ".toList, "10".toList, by decide, by decide, by decide⟩⟩

/-- Claim C10: LIMIT-presence is a case-insensitive substring test.  For
every SQL string in which `limit` occurs anywhere — also inside an
identifier such as `credit_limit` — `validate` does not emit its
missing-LIMIT warning, and `sanitize` appends nothing (it only strips
whitespace and trailing semicolons). -/
theorem C10_limit_substring (sql : String) (h : hasLimit sql = true) :
    (validate sql).warnedMissingLimit = false ∧
    sanitize sql = (⟨rstripSemiL (pyStripL sql.toList)⟩ : String) := by
  constructor
  · simp only [validate]
    split
    · rfl
    · split
      · rfl
      · split
        · rfl
        · split
          · rfl
          · rw [h]
            rfl
  · have hinner : hasLimit (⟨rstripSemiL (pyStripL sql.toList)⟩ : String) = true := by
      rw [hasLimit_mk]
      rw [hasLimit_eq] at h
      exact hasLimit_strip_anti h
    simp only [sanitize, hinner, Bool.not_true]
    simp

/-! ## Claims about SQL generation and completeness -/

lemma hasSub_of_indexOfSub {p l : List Char} {i : Nat} (h : indexOfSub p l = some i) :
    hasSub p l = true := by
  unfold indexOfSub at h
  unfold hasSub
  have hp := List.find?_some h
  have hm := List.mem_of_find?_eq_some h
  exact List.any_eq_true.mpr ⟨i, hm, hp⟩

/-- Claim C3: on a generated candidate that starts with `SELECT` and whose
first `FROM` is directly followed by the token `LIMIT` (such as
`SELECT * FROM LIMIT 10`), the completeness check fails with the
missing-table-name reason, `generate` reports failure, and
`handle_question` returns without ever calling the executor — so the
candidate reaches neither the Security Validator nor the database. -/
theorem C3_from_limit_incomplete (sql : String)
    (hsel : "SELECT".toList.isPrefixOf (pyStripL (upperL sql.toList)) = true)
    (hfl : fromDirectlyFollowedByLimit sql = true) :
    validateSqlCompleteness sql = some "Query missing table name after FROM clause" ∧
    generateFromExtracted (some sql) =
      (false, none,
        some "Generated SQL is incomplete: Query missing table name after FROM clause") ∧
    handleGeneratedSql (generateFromExtracted (some sql)) = ⟨false, none, false⟩ := by
  have h1 : validateSqlCompleteness sql =
      some "Query missing table name after FROM clause" := by
    unfold fromDirectlyFollowedByLimit at hfl
    unfold validateSqlCompleteness validateCompletenessCore
    cases hio : indexOfSub "FROM".toList (pyStripL (upperL sql.toList)) with
    | none =>
      rw [hio] at hfl
      exact absurd hfl (by simp)
    | some i =>
      rw [hio] at hfl
      have hfl' : "LIMIT".toList.isPrefixOf
          (pyStripL ((pyStripL (upperL sql.toList)).drop (i + 4))) = true := hfl
      have hhas := hasSub_of_indexOfSub hio
      have hch : checkAfterFrom (pyStripL (upperL sql.toList)) =
          some "Query missing table name after FROM clause" := by
        unfold checkAfterFrom
        rw [hio]
        simp only [hfl', Bool.or_true, if_pos]
      rw [hsel, hhas, hch]
      rfl
  refine ⟨h1, ?_, ?_⟩
  · simp only [generateFromExtracted, h1]
    rfl
  · simp only [generateFromExtracted, h1]
    rfl

/-- Claim C3, witness: the literal candidate `SELECT * FROM LIMIT 10`. -/
theorem C3_from_limit_incomplete_witness :
    "SELECT".toList.isPrefixOf
      (pyStripL (upperL ("SELECT * FROM LIMIT 10" : String).toList)) = true ∧
    fromDirectlyFollowedByLimit "SELECT * FROM LIMIT 10" = true ∧
    handleGeneratedSql (generateFromExtracted (some "SELECT * FROM LIMIT 10")) =
      ⟨false, none, false⟩ :=
  ⟨rfl, rfl, (C3_from_limit_incomplete "SELECT * FROM LIMIT 10" rfl rfl).2.2⟩

/-! ## Claims about the Intent Detector -/

lemma anyMatched_of_two {pats : List (List PatAlt)} {q : List Char}
    (h : 2 ≤ countMatched pats q) : anyMatched pats q = true := by
  unfold countMatched at h
  unfold anyMatched
  cases hf : pats.filter (patMatches q) with
  | nil => rw [hf] at h; simp at h
  | cons p ps =>
    have hpmem : p ∈ pats.filter (patMatches q) := by
      rw [hf]
      exact List.mem_cons_self p ps
    exact List.any_eq_true.mpr
      ⟨p, List.mem_of_mem_filter hpmem, List.of_mem_filter hpmem⟩

/-- Claim C4: a question whose lowercased text matches at least two
correlation patterns and at least two aggregate patterns is classified
`correlation` (correlation is tested first, before trend, comparison,
aggregate and list) with confidence 0.9. -/
theorem C4_correlation_precedence (question : String)
    (hc : 2 ≤ countMatched CORRELATION_PATTERNS (lowerL question.toList))
    (_ha : 2 ≤ countMatched AGGREGATE_PATTERNS (lowerL question.toList)) :
    (detect question).type = "correlation" ∧ (detect question).confidence = 9/10 := by
  have hany := anyMatched_of_two hc
  have htype : detectIntentType (lowerL question.toList) = "correlation" := by
    unfold detectIntentType
    rw [hany]
    rfl
  constructor
  · show detectIntentType (lowerL question.toList) = "correlation"
    exact htype
  · show calculateConfidence (detectIntentType (lowerL question.toList))
      (lowerL question.toList) = 9/10
    rw [htype]
    have e : calculateConfidence "correlation" (lowerL question.toList) =
        (if 2 ≤ countMatched CORRELATION_PATTERNS (lowerL question.toList) then (9 : ℚ)/10
         else if countMatched CORRELATION_PATTERNS (lowerL question.toList) = 1
           then 7/10 else 5/10) := rfl
    rw [e, if_pos hc]

/-- Claim C4, witness: a question matching two correlation patterns
(`correlation`, `related`) and two aggregate patterns (`count`, `most`). -/
theorem C4_correlation_precedence_witness :
    2 ≤ countMatched CORRELATION_PATTERNS
      (lowerL ("what correlation is related to the most count" : String).toList) ∧
    2 ≤ countMatched AGGREGATE_PATTERNS
      (lowerL ("what correlation is related to the most count" : String).toList) ∧
    (detect "what correlation is related to the most count").type = "correlation" ∧
    (detect "what correlation is related to the most count").confidence = 9/10 := by
  have h := C4_correlation_precedence "what correlation is related to the most count"
    (by decide) (by decide)
  exact ⟨by decide, by decide, h.1, h.2⟩

lemma detectIntentType_mem (q : List Char) :
    detectIntentType q = "correlation" ∨ detectIntentType q = "trend" ∨
    detectIntentType q = "comparison" ∨ detectIntentType q = "aggregate" ∨
    detectIntentType q = "list" ∨ detectIntentType q = "unknown" := by
  unfold detectIntentType
  split_ifs <;> simp

/-- Claim C8: for every question, `analysis_required` equals membership of
the detected type in `{correlation, comparison, trend, aggregate}`; in
particular it is false exactly when the type is `list` or `unknown`. -/
theorem C8_analysis_required_invariant (question : String) :
    (detect question).analysis_required =
      (["correlation", "comparison", "trend", "aggregate"].contains (detect question).type) ∧
    ((detect question).analysis_required = false ↔
      ((detect question).type = "list" ∨ (detect question).type = "unknown")) := by
  have h1 : (detect question).analysis_required =
      (["correlation", "comparison", "trend", "aggregate"].contains
        (detect question).type) := rfl
  refine ⟨h1, ?_⟩
  have h2 : (detect question).type = detectIntentType (lowerL question.toList) := rfl
  rw [h1, h2]
  rcases detectIntentType_mem (lowerL question.toList) with h|h|h|h|h|h <;> rw [h] <;> decide

/-- Claim C10, witness: `SELECT credit_limit FROM accounts;` has no LIMIT
clause, only a column named `credit_limit`, yet no warning fires and
`sanitize` only strips the semicolon — the query keeps no row bound. -/
theorem C10_limit_substring_witness :
    hasLimit "SELECT credit_limit FROM accounts;" = true ∧
    (validate "SELECT credit_limit FROM accounts;").warnedMissingLimit = false ∧
    sanitize "SELECT credit_limit FROM accounts;" = "SELECT credit_limit FROM accounts" := by
  refine ⟨rfl, (C10_limit_substring "SELECT credit_limit FROM accounts;" rfl).1, ?_⟩
  rw [(C10_limit_substring "SELECT credit_limit FROM accounts;" rfl).2]
  rfl

/-! ## Helper lemmas: means, variances and the Pearson coefficient -/

lemma sum_map_mul (l : List ℚ) (c : ℚ) (f : ℚ → ℚ) :
    (l.map fun x => c * f x).sum = c * (l.map f).sum := by
  induction l with
  | nil => simp
  | cons x xs ih =>
    simp only [List.map_cons, List.sum_cons, ih]
    ring

lemma sum_map_affine (u : List ℚ) (a b : ℚ) :
    (u.map fun x => a * x + b).sum = a * u.sum + b * u.length := by
  induction u with
  | nil => simp
  | cons x xs ih =>
    simp only [List.map_cons, List.sum_cons, ih, List.length_cons]
    push_cast
    ring

lemma meanQ_map_affine (u : List ℚ) (a b : ℚ) (hu : u ≠ []) :
    meanQ (u.map fun x => a * x + b) = a * meanQ u + b := by
  unfold meanQ
  rw [List.length_map, sum_map_affine]
  have hn : (u.length : ℚ) ≠ 0 := by
    have := List.length_pos.mpr hu
    positivity
  field_simp

lemma sdev_map_affine (u : List ℚ) (a b : ℚ) (hu : u ≠ []) :
    sdev (u.map fun x => a * x + b) = (sdev u).map fun x => a * x := by
  unfold sdev
  rw [meanQ_map_affine u a b hu, List.map_map, List.map_map]
  apply List.map_congr_left
  intro x _
  simp only [Function.comp_apply]
  ring

lemma sxy_self_eq (u : List ℚ) : sxy u u = ((sdev u).map fun x => x * x).sum := by
  unfold sxy
  rw [List.zipWith_same]

lemma sxy_affine (u : List ℚ) (a b : ℚ) (hu : u ≠ []) :
    sxy u (u.map fun x => a * x + b) = a * sxy u u := by
  unfold sxy
  rw [sdev_map_affine u a b hu, List.zipWith_map_right, List.zipWith_same, List.zipWith_same]
  have he : ((sdev u).map fun x => x * (a * x)) = (sdev u).map fun x => a * (x * x) := by
    apply List.map_congr_left
    intro x _
    ring
  rw [he, sum_map_mul]

lemma sxy_affine_self (u : List ℚ) (a b : ℚ) (hu : u ≠ []) :
    sxy (u.map fun x => a * x + b) (u.map fun x => a * x + b) = a ^ 2 * sxy u u := by
  unfold sxy
  rw [sdev_map_affine u a b hu, List.zipWith_map_right, List.zipWith_map_left,
    List.zipWith_same]
  have he : ((sdev u).map fun x => a * x * (a * x)) = (sdev u).map fun x => a ^ 2 * (x * x) := by
    apply List.map_congr_left
    intro x _
    ring
  rw [he, sum_map_mul, List.zipWith_same]

lemma sxy_comm (xs ys : List ℚ) : sxy xs ys = sxy ys xs := by
  unfold sxy
  congr 1
  apply List.zipWith_comm_of_comm
  intro a b
  ring

lemma sum_eq_zero_all_zero {l : List ℚ} (hnn : ∀ t ∈ l, 0 ≤ t) (hz : l.sum = 0) :
    ∀ t ∈ l, t = 0 := by
  induction l with
  | nil => intro t ht; simp at ht
  | cons x xs ih =>
    rw [List.sum_cons] at hz
    have hx : 0 ≤ x := hnn x (by simp)
    have hxs : 0 ≤ xs.sum := List.sum_nonneg (fun t ht => hnn t (by simp [ht]))
    have hx0 : x = 0 := by linarith
    have hsum0 : xs.sum = 0 := by linarith
    intro t ht
    rcases List.mem_cons.mp ht with rfl | ht
    · exact hx0
    · exact ih (fun t ht => hnn t (by simp [ht])) hsum0 t ht

lemma sxy_self_nonneg (u : List ℚ) : 0 ≤ sxy u u := by
  rw [sxy_self_eq]
  exact List.sum_nonneg (fun t ht => by
    rcases List.mem_map.mp ht with ⟨x, _, rfl⟩
    exact mul_self_nonneg x)

lemma sxy_self_pos (u : List ℚ) {x y : ℚ} (hx : x ∈ u) (hy : y ∈ u) (hxy : x ≠ y) :
    0 < sxy u u := by
  rcases lt_or_eq_of_le (sxy_self_nonneg u) with h | h
  · exact h
  · exfalso
    rw [sxy_self_eq] at h
    have hall := sum_eq_zero_all_zero (l := (sdev u).map fun x => x * x)
      (fun t ht => by
        rcases List.mem_map.mp ht with ⟨z, _, rfl⟩
        exact mul_self_nonneg z) h.symm
    have hzx : x - meanQ u = 0 := by
      have hmem : (x - meanQ u) * (x - meanQ u) ∈ (sdev u).map fun z => z * z :=
        List.mem_map.mpr ⟨x - meanQ u, List.mem_map.mpr ⟨x, hx, rfl⟩, rfl⟩
      exact mul_self_eq_zero.mp (hall _ hmem)
    have hzy : y - meanQ u = 0 := by
      have hmem : (y - meanQ u) * (y - meanQ u) ∈ (sdev u).map fun z => z * z :=
        List.mem_map.mpr ⟨y - meanQ u, List.mem_map.mpr ⟨y, hy, rfl⟩, rfl⟩
      exact mul_self_eq_zero.mp (hall _ hmem)
    apply hxy
    have : x - meanQ u = y - meanQ u := by rw [hzx, hzy]
    linarith

lemma pearson_pos_linear (u : List ℚ) (a b : ℚ) (ha : 0 < a) (hvar : 0 < sxy u u)
    (hu : u ≠ []) :
    pearson (u.zip (u.map fun x => a * x + b)) = some 1 := by
  simp only [pearson]
  rw [List.map_fst_zip _ _ (by simp), List.map_snd_zip _ _ (by simp)]
  rw [sxy_affine u a b hu, sxy_affine_self u a b hu]
  rw [if_neg (by
    push_neg
    constructor
    · exact ne_of_gt hvar
    · exact ne_of_gt (by positivity))]
  congr 1
  have hsR : (0 : ℝ) < ((sxy u u : ℚ) : ℝ) := by exact_mod_cast hvar
  have haR : (0 : ℝ) < ((a : ℚ) : ℝ) := by exact_mod_cast ha
  push_cast
  rw [Real.sqrt_mul (by positivity), Real.sqrt_sq haR.le]
  have h1 : Real.sqrt ((sxy u u : ℚ) : ℝ) ≠ 0 := by positivity
  have h2 : Real.sqrt ((sxy u u : ℚ) : ℝ) * Real.sqrt ((sxy u u : ℚ) : ℝ) =
      ((sxy u u : ℚ) : ℝ) := Real.mul_self_sqrt hsR.le
  field_simp
  nlinarith [h2]

lemma pearson_self (u : List ℚ) (hvar : 0 < sxy u u) (hu : u ≠ []) :
    pearson (u.zip u) = some 1 := by
  have h := pearson_pos_linear u 1 0 one_pos hvar hu
  simpa using h

lemma pearson_swap (ps : List (ℚ × ℚ)) : pearson (ps.map Prod.swap) = pearson ps := by
  simp only [pearson]
  have h1 : (ps.map Prod.swap).map Prod.fst = ps.map Prod.snd := by
    rw [List.map_map]; rfl
  have h2 : (ps.map Prod.swap).map Prod.snd = ps.map Prod.fst := by
    rw [List.map_map]; rfl
  rw [h1, h2]
  rw [sxy_comm (ps.map Prod.snd) (ps.map Prod.fst)]
  by_cases h : sxy (ps.map Prod.fst) (ps.map Prod.fst) = 0 ∨
      sxy (ps.map Prod.snd) (ps.map Prod.snd) = 0
  · rw [if_pos h.symm, if_pos h]
  · rw [if_neg (fun hc => h hc.symm), if_neg h]
    rw [mul_comm]

lemma pairsComplete_some (v w : List ℚ) :
    pairsComplete (v.map some) (w.map some) = v.zip w := by
  induction v generalizing w with
  | nil => simp [pairsComplete]
  | cons x xs ih =>
    cases w with
    | nil => simp [pairsComplete]
    | cons y ys =>
      show (x, y) :: pairsComplete (xs.map some) (ys.map some) = (x, y) :: xs.zip ys
      rw [ih ys]

/-! ## Helper lemmas: the correlation column choice -/

lemma innerScan_mem (m : String) (cs : List String) (st : Option String × Option String) :
    ((innerScan m cs st).1 = st.1 ∨ ∃ c ∈ cs, (innerScan m cs st).1 = some c) ∧
    ((innerScan m cs st).2 = st.2 ∨ ∃ c ∈ cs, (innerScan m cs st).2 = some c) := by
  induction cs generalizing st with
  | nil => exact ⟨Or.inl rfl, Or.inl rfl⟩
  | cons c cs ih =>
    obtain ⟨x, y⟩ := st
    have hstep : innerScan m (c :: cs) (x, y) =
        (if metricColMatch m c = true then
           if strFalsy x = true then innerScan m cs (some c, y)
           else if strFalsy y = true then (x, some c)
           else innerScan m cs (x, y)
         else innerScan m cs (x, y)) := rfl
    rw [hstep]
    by_cases h1 : metricColMatch m c = true
    · rw [if_pos h1]
      by_cases h2 : strFalsy x = true
      · rw [if_pos h2]
        rcases ih (some c, y) with ⟨hf, hs⟩
        constructor
        · rcases hf with hf | ⟨d, hd, hf⟩
          · exact Or.inr ⟨c, by simp, hf⟩
          · exact Or.inr ⟨d, by simp [hd], hf⟩
        · rcases hs with hs | ⟨d, hd, hs⟩
          · exact Or.inl hs
          · exact Or.inr ⟨d, by simp [hd], hs⟩
      · rw [if_neg h2]
        by_cases h3 : strFalsy y = true
        · rw [if_pos h3]
          exact ⟨Or.inl rfl, Or.inr ⟨c, by simp, rfl⟩⟩
        · rw [if_neg h3]
          rcases ih (x, y) with ⟨hf, hs⟩
          constructor
          · rcases hf with hf | ⟨d, hd, hf⟩
            · exact Or.inl hf
            · exact Or.inr ⟨d, by simp [hd], hf⟩
          · rcases hs with hs | ⟨d, hd, hs⟩
            · exact Or.inl hs
            · exact Or.inr ⟨d, by simp [hd], hs⟩
    · rw [if_neg h1]
      rcases ih (x, y) with ⟨hf, hs⟩
      constructor
      · rcases hf with hf | ⟨d, hd, hf⟩
        · exact Or.inl hf
        · exact Or.inr ⟨d, by simp [hd], hf⟩
      · rcases hs with hs | ⟨d, hd, hs⟩
        · exact Or.inl hs
        · exact Or.inr ⟨d, by simp [hd], hs⟩

lemma identifyCore_mem (ms : List String) (cols : List String)
    (st : Option String × Option String)
    (hx : st.1 = none ∨ ∃ c ∈ cols, st.1 = some c)
    (hy : st.2 = none ∨ ∃ c ∈ cols, st.2 = some c) :
    ((ms.foldl (fun st m => innerScan m cols st) st).1 = none ∨
      ∃ c ∈ cols, (ms.foldl (fun st m => innerScan m cols st) st).1 = some c) ∧
    ((ms.foldl (fun st m => innerScan m cols st) st).2 = none ∨
      ∃ c ∈ cols, (ms.foldl (fun st m => innerScan m cols st) st).2 = some c) := by
  induction ms generalizing st with
  | nil => exact ⟨hx, hy⟩
  | cons m ms ih =>
    rw [List.foldl_cons]
    apply ih
    · rcases (innerScan_mem m cols st).1 with h | ⟨c, hc, h⟩
      · rw [h]; exact hx
      · exact Or.inr ⟨c, hc, h⟩
    · rcases (innerScan_mem m cols st).2 with h | ⟨c, hc, h⟩
      · rw [h]; exact hy
      · exact Or.inr ⟨c, hc, h⟩

lemma identify_cases (ms : List String) (c1 c2 : String) :
    identifyCorrelationColumns [c1, c2] ms = (some c1, some c2) ∨
    ∃ d1 d2, identifyCorrelationColumns [c1, c2] ms = (some d1, some d2) ∧
      (d1 = c1 ∨ d1 = c2) ∧ (d2 = c1 ∨ d2 = c2) ∧
      strFalsy (some d1) = false ∧ strFalsy (some d2) = false := by
  have hmem := identifyCore_mem ms [c1, c2] (none, none) (Or.inl rfl) (Or.inl rfl)
  simp only [identifyCorrelationColumns]
  rw [if_neg (by simp)]
  split
  · left
    rfl
  · next hcond =>
    right
    set st := ms.foldl (fun st m => innerScan m [c1, c2] st) (none, none) with hst
    have hf1 : strFalsy st.1 = false := by
      by_contra hc
      rw [Bool.not_eq_false] at hc
      exact hcond (by simp [hc])
    have hf2 : strFalsy st.2 = false := by
      by_contra hc
      rw [Bool.not_eq_false] at hc
      exact hcond (by simp [hc])
    rcases hmem.1 with h1 | ⟨d1, hd1, h1⟩
    · rw [h1] at hf1
      exact absurd hf1 (by simp [strFalsy])
    · rcases hmem.2 with h2 | ⟨d2, hd2, h2⟩
      · rw [h2] at hf2
        exact absurd hf2 (by simp [strFalsy])
      · refine ⟨d1, d2, ?_, ?_, ?_, ?_, ?_⟩
        · rw [Prod.ext_iff]
          exact ⟨h1, h2⟩
        · simpa using hd1
        · simpa using hd2
        · rw [h1] at hf1
          exact hf1
        · rw [h2] at hf2
          exact hf2

lemma corrColumnPick_mem (ms : List String) (c1 c2 : String) :
    ((corrColumnPick [c1, c2] ms c1 c2).1 = c1 ∨ (corrColumnPick [c1, c2] ms c1 c2).1 = c2) ∧
    ((corrColumnPick [c1, c2] ms c1 c2).2 = c1 ∨ (corrColumnPick [c1, c2] ms c1 c2).2 = c2) := by
  rcases identify_cases ms c1 c2 with hid | ⟨d1, d2, hid, hd1, hd2, hf1, hf2⟩
  · simp only [corrColumnPick, hid]
    split
    · exact ⟨Or.inl rfl, Or.inr rfl⟩
    · exact ⟨Or.inl rfl, Or.inr rfl⟩
  · simp only [corrColumnPick, hid]
    split
    · exact ⟨Or.inl rfl, Or.inr rfl⟩
    · exact ⟨by simpa using hd1, by simpa using hd2⟩

/-! ## Claims about the Statistical Analysis Engine -/

lemma interpretCorrelation_one : interpretCorrelation 1 = ("very_strong", "positive") := by
  unfold interpretCorrelation
  norm_num

lemma bankerRoundR_int (n : ℤ) : bankerRoundR (n : ℝ) = n := by
  unfold bankerRoundR
  rw [Int.floor_intCast]
  rw [if_pos (by norm_num)]

lemma roundToR_one : roundToR 3 (1 : ℝ) = 1 := by
  unfold roundToR
  have h : (1 : ℝ) * 10 ^ 3 = ((1000 : ℤ) : ℝ) := by norm_num
  rw [h, bankerRoundR_int]
  norm_num

lemma corrFromClean_fields (xc yc : String) (ps : List (ℚ × ℚ))
    (h3 : 3 ≤ ps.length) (hxy : xc ≠ yc) (hp : pearson ps = some 1) :
    (corrFromClean xc yc ps).has_analysis = true ∧
    (corrFromClean xc yc ps).statistical_result.coefficient? = some 1 ∧
    (corrFromClean xc yc ps).statistical_result.strength? = some "very_strong" ∧
    (corrFromClean xc yc ps).statistical_result.direction? = some "positive" ∧
    (corrFromClean xc yc ps).visualization_type = "scatter" := by
  unfold corrFromClean
  rw [if_neg (by omega), if_neg (by simp [hxy]), hp]
  have hg : (some (1 : ℝ)).getD 0 = 1 := rfl
  rw [hg, interpretCorrelation_one, roundToR_one]
  exact ⟨rfl, rfl, rfl, rfl, rfl⟩

/-- Claim C5, amended: on a result set whose numeric columns are exactly
two perfectly linearly related series with positive slope (no nulls, at
least three rows, not all values equal) and an intent of type
`correlation`, *provided the metric matching resolves the two variables to
two distinct columns*, `analyze` reports an analysis with Pearson
coefficient exactly 1, strength `very_strong`, direction `positive`, and a
scatter visualization — whichever of the two columns plays x and which y.
(When both variables resolve to the same column the `corr` call at line
127 raises and `analyze` reports no analysis: see the counterexample.) -/
theorem C5_correlation_linear (data : List Row) (intent : Intent) (question : String)
    (c1 c2 : String) (v w : List ℚ) (a b : ℚ)
    (hty : intent.type = "correlation")
    (hcols : numericCols (toDFrame data) = [c1, c2])
    (hpick : (corrColumnPick [c1, c2] intent.metrics c1 c2).1 ≠
      (corrColumnPick [c1, c2] intent.metrics c1 c2).2)
    (hx : colNums (getCol (toDFrame data) c1) = v.map some)
    (hy : colNums (getCol (toDFrame data) c2) = w.map some)
    (hlin : w = v.map fun x => a * x + b)
    (ha : 0 < a)
    (hn : 3 ≤ v.length)
    (hne : data ≠ [])
    (hvx : ∃ x ∈ v, ∃ y ∈ v, x ≠ y) :
    (analyze data intent question).has_analysis = true ∧
    (analyze data intent question).statistical_result.coefficient? = some 1 ∧
    (analyze data intent question).statistical_result.strength? = some "very_strong" ∧
    (analyze data intent question).statistical_result.direction? = some "positive" ∧
    (analyze data intent question).visualization_type = "scatter" := by
  have hemp : data.isEmpty = false := by
    cases data with
    | nil => exact absurd rfl hne
    | cons r rs => rfl
  have hana : analyze data intent question = analyzeCorrelation (toDFrame data) intent := by
    unfold analyze
    rw [hemp, hty]
    rfl
  obtain ⟨x0, hx0, y0, hy0, hxy0⟩ := hvx
  have hvpos : 0 < sxy v v := sxy_self_pos v hx0 hy0 hxy0
  have hune : v ≠ [] := by
    intro hnil
    rw [hnil] at hn
    simp at hn
  have hwlen : w.length = v.length := by rw [hlin]; simp
  have hmatch : analyzeCorrelation (toDFrame data) intent =
      corrFromClean (corrColumnPick [c1, c2] intent.metrics c1 c2).1
        (corrColumnPick [c1, c2] intent.metrics c1 c2).2
        (pairsComplete
          (colNums (getCol (toDFrame data) (corrColumnPick [c1, c2] intent.metrics c1 c2).1))
          (colNums (getCol (toDFrame data) (corrColumnPick [c1, c2] intent.metrics c1 c2).2))) := by
    unfold analyzeCorrelation
    rw [hcols]
  rw [hana, hmatch]
  obtain ⟨hxc, hyc⟩ := corrColumnPick_mem intent.metrics c1 c2
  rcases hxc with hxc | hxc <;> rcases hyc with hyc | hyc
  · exact absurd (hxc.trans hyc.symm) hpick
  · rw [hxc, hyc] at hpick
    rw [hxc, hyc, hx, hy, pairsComplete_some]
    apply corrFromClean_fields
    · rw [List.length_zip]
      omega
    · exact hpick
    · rw [hlin]
      exact pearson_pos_linear v a b ha hvpos hune
  · rw [hxc, hyc] at hpick
    rw [hxc, hyc, hy, hx, pairsComplete_some, ← List.zip_swap v w]
    apply corrFromClean_fields
    · rw [List.length_map, List.length_zip]
      omega
    · exact hpick
    · rw [pearson_swap, hlin]
      exact pearson_pos_linear v a b ha hvpos hune
  · exact absurd (hxc.trans hyc.symm) hpick

/-- Claim C5, witness: `y = 2x` over ten rows; the intent's metric list is
empty, so the column pick falls back to the two distinct columns `x`, `y`
and the distinct-pick hypothesis holds by computation. -/
theorem C5_correlation_linear_witness :
    corrWitnessIntent.type = "correlation" ∧
    numericCols (toDFrame corrWitnessRows) = ["x", "y"] ∧
    ([2, 4, 6, 8, 10, 12, 14, 16, 18, 20] : List ℚ) =
      ([1, 2, 3, 4, 5, 6, 7, 8, 9, 10] : List ℚ).map (fun x => 2 * x + 0) ∧
    (analyze corrWitnessRows corrWitnessIntent "q").has_analysis = true ∧
    (analyze corrWitnessRows corrWitnessIntent "q").statistical_result.coefficient? = some 1 ∧
    (analyze corrWitnessRows corrWitnessIntent "q").statistical_result.strength? =
      some "very_strong" ∧
    (analyze corrWitnessRows corrWitnessIntent "q").statistical_result.direction? =
      some "positive" ∧
    (analyze corrWitnessRows corrWitnessIntent "q").visualization_type = "scatter" := by
  have h := C5_correlation_linear corrWitnessRows corrWitnessIntent "q" "x" "y"
    [1, 2, 3, 4, 5, 6, 7, 8, 9, 10] [2, 4, 6, 8, 10, 12, 14, 16, 18, 20] 2 0
    rfl (by decide) (by decide) (by decide) (by decide) (by norm_num) (by norm_num)
    (by decide) (by decide) ⟨1, by decide, 2, by decide, by norm_num⟩
  exact ⟨rfl, by decide, by norm_num, h.1, h.2.1, h.2.2.1, h.2.2.2.1, h.2.2.2.2⟩

/-- Claim C5, counterexample: `corrDegenRows` holds exactly two numeric
columns with `z = 2 * price_amount` over three rows, no nulls — an
instance of the claimed precondition — under a correlation intent, yet
`analyze` reports `has_analysis = false`.  The intent's metrics `price`
and `amount` each match the column name `price_amount` by the substring
test, so `_identify_correlation_columns` returns that column for both
variables; `df[[x_col, y_col]]` (statistical_analysis.py line 117) then
duplicates the column, `clean_df[x_col].corr(...)` at line 127 raises, and
the `except` branch at lines 154-162 reports no analysis. -/
theorem C5_correlation_counterexample :
    corrDegenIntent.type = "correlation" ∧
    numericCols (toDFrame corrDegenRows) = ["price_amount", "z"] ∧
    colNums (getCol (toDFrame corrDegenRows) "price_amount") =
      [some 1, some 2, some 3] ∧
    colNums (getCol (toDFrame corrDegenRows) "z") = [some 2, some 4, some 6] ∧
    (corrColumnPick ["price_amount", "z"] corrDegenIntent.metrics "price_amount" "z").1 =
      (corrColumnPick ["price_amount", "z"] corrDegenIntent.metrics "price_amount" "z").2 ∧
    (analyze corrDegenRows corrDegenIntent "q").has_analysis = false ∧
    (analyze corrDegenRows corrDegenIntent "q").visualization_type = "scatter" := by
  refine ⟨rfl, by decide, by decide, by decide, by decide, rfl, rfl⟩

/-- Claim C6: on a trend intent, with a first numeric column holding at
least two non-null values, `analyze` reports direction `increasing` exactly
when the mean of the second half of the series (split at the midpoint)
exceeds the mean of the first half, else `decreasing`. -/
theorem C6_trend_direction (data : List Row) (intent : Intent) (question : String)
    (m : String) (rest : List String)
    (hty : intent.type = "trend")
    (hne : data ≠ [])
    (hcols : numericCols (toDFrame data) = m :: rest)
    (hlen : 2 ≤ (nonNull (getCol (toDFrame data) m)).length) :
    (analyze data intent question).has_analysis = true ∧
    (analyze data intent question).statistical_result.direction? =
      some (trendDirection (nonNull (getCol (toDFrame data) m))) ∧
    trendDirection (nonNull (getCol (toDFrame data) m)) =
      (if meanQ ((nonNull (getCol (toDFrame data) m)).drop
            ((nonNull (getCol (toDFrame data) m)).length / 2)) >
          meanQ ((nonNull (getCol (toDFrame data) m)).take
            ((nonNull (getCol (toDFrame data) m)).length / 2))
       then "increasing" else "decreasing") := by
  have hemp : data.isEmpty = false := by
    cases data with
    | nil => exact absurd rfl hne
    | cons r rs => rfl
  have hana : analyze data intent question = analyzeTrend (toDFrame data) := by
    unfold analyze
    rw [hemp, hty]
    rfl
  have htr : analyzeTrend (toDFrame data) =
      trendResult m (nonNull (getCol (toDFrame data) m)) := by
    unfold analyzeTrend
    rw [hcols]
  rw [hana, htr]
  unfold trendResult
  rw [if_neg (by omega)]
  exact ⟨rfl, rfl, rfl⟩

/-- Claim C6, witness: the values 1..6 in row order give `increasing`
(means 2 for the first half, 5 for the second). -/
theorem C6_trend_direction_witness :
    trendWitnessIntent.type = "trend" ∧ trendWitnessRows ≠ [] ∧
    numericCols (toDFrame trendWitnessRows) = ["v"] ∧
    2 ≤ (nonNull (getCol (toDFrame trendWitnessRows) "v")).length ∧
    (analyze trendWitnessRows trendWitnessIntent "q").statistical_result.direction? =
      some "increasing" := by
  have h := (C6_trend_direction trendWitnessRows trendWitnessIntent "q" "v" []
    rfl (by decide) (by decide) (by decide)).2.1
  refine ⟨rfl, by decide, by decide, by decide, ?_⟩
  rw [h]
  have hval : nonNull (getCol (toDFrame trendWitnessRows) "v") =
      ([1, 2, 3, 4, 5, 6] : List ℚ) := by decide
  rw [hval]
  norm_num [trendDirection, secondHalfMean, firstHalfMean, meanQ]

/-- Claim C7: on an empty result set, `analyze` reports no analysis and
visualization type `none`, whatever the intent and the question. -/
theorem C7_empty_results (intent : Intent) (question : String) :
    analyze [] intent question =
      { has_analysis := false, analysis_type := none,
        statistical_result := .empty, visualization_type := "none" } := rfl

end ChatWithDb
